import Mathlib

/-!
Verification of the Indygo Pool data-acquisition client
(`custom_components/indygo_pool`): the HTML/JS object extractor, the
discovery parser, the data normalizer, the authenticated session client's
retry policy, and the command writer's program-list construction and
remote-sync choreography, shallowly embedded from the Python source.

JSON values are modelled by `JVal`; Python dicts arising from parsed JSON
are association lists (`JDict`), looked up by first matching key, written
with replace-or-append (insertion-ordered, as Python dicts are).  Python
code that can raise is embedded in `Except PyErr`.
-/

namespace IndygoPool

/-- Errors a fragment of the Python code can raise at runtime. -/
inductive PyErr where
  | typeError
  | attributeError
  | keyError
  deriving Repr, DecidableEq

/-- A JSON value, as produced by `json.loads`.  Numbers are rationals. -/
inductive JVal where
  | null
  | bool (b : Bool)
  | num (q : Rat)
  | str (s : String)
  | arr (xs : List JVal)
  | obj (fields : List (String × JVal))
  deriving Repr

mutual

/-- Decidable equality for `JVal` (the nested inductive defeats `deriving`). -/
def jvalDecEq : (a b : JVal) → Decidable (a = b)
  | .null, .null => .isTrue rfl
  | .null, .bool _ => .isFalse (fun h => JVal.noConfusion h)
  | .null, .num _ => .isFalse (fun h => JVal.noConfusion h)
  | .null, .str _ => .isFalse (fun h => JVal.noConfusion h)
  | .null, .arr _ => .isFalse (fun h => JVal.noConfusion h)
  | .null, .obj _ => .isFalse (fun h => JVal.noConfusion h)
  | .bool _, .null => .isFalse (fun h => JVal.noConfusion h)
  | .bool a, .bool b =>
    if h : a = b then .isTrue (h ▸ rfl)
    else .isFalse (fun hh => h (by injection hh))
  | .bool _, .num _ => .isFalse (fun h => JVal.noConfusion h)
  | .bool _, .str _ => .isFalse (fun h => JVal.noConfusion h)
  | .bool _, .arr _ => .isFalse (fun h => JVal.noConfusion h)
  | .bool _, .obj _ => .isFalse (fun h => JVal.noConfusion h)
  | .num _, .null => .isFalse (fun h => JVal.noConfusion h)
  | .num _, .bool _ => .isFalse (fun h => JVal.noConfusion h)
  | .num a, .num b =>
    if h : a = b then .isTrue (h ▸ rfl)
    else .isFalse (fun hh => h (by injection hh))
  | .num _, .str _ => .isFalse (fun h => JVal.noConfusion h)
  | .num _, .arr _ => .isFalse (fun h => JVal.noConfusion h)
  | .num _, .obj _ => .isFalse (fun h => JVal.noConfusion h)
  | .str _, .null => .isFalse (fun h => JVal.noConfusion h)
  | .str _, .bool _ => .isFalse (fun h => JVal.noConfusion h)
  | .str _, .num _ => .isFalse (fun h => JVal.noConfusion h)
  | .str a, .str b =>
    if h : a = b then .isTrue (h ▸ rfl)
    else .isFalse (fun hh => h (by injection hh))
  | .str _, .arr _ => .isFalse (fun h => JVal.noConfusion h)
  | .str _, .obj _ => .isFalse (fun h => JVal.noConfusion h)
  | .arr _, .null => .isFalse (fun h => JVal.noConfusion h)
  | .arr _, .bool _ => .isFalse (fun h => JVal.noConfusion h)
  | .arr _, .num _ => .isFalse (fun h => JVal.noConfusion h)
  | .arr _, .str _ => .isFalse (fun h => JVal.noConfusion h)
  | .arr xs, .arr ys =>
    match jvalListDecEq xs ys with
    | .isTrue h => .isTrue (h ▸ rfl)
    | .isFalse h => .isFalse (fun hh => h (by injection hh))
  | .arr _, .obj _ => .isFalse (fun h => JVal.noConfusion h)
  | .obj _, .null => .isFalse (fun h => JVal.noConfusion h)
  | .obj _, .bool _ => .isFalse (fun h => JVal.noConfusion h)
  | .obj _, .num _ => .isFalse (fun h => JVal.noConfusion h)
  | .obj _, .str _ => .isFalse (fun h => JVal.noConfusion h)
  | .obj _, .arr _ => .isFalse (fun h => JVal.noConfusion h)
  | .obj fs, .obj gs =>
    match jvalFieldsDecEq fs gs with
    | .isTrue h => .isTrue (h ▸ rfl)
    | .isFalse h => .isFalse (fun hh => h (by injection hh))

/-- Decidable equality for lists of `JVal`. -/
def jvalListDecEq : (xs ys : List JVal) → Decidable (xs = ys)
  | [], [] => .isTrue rfl
  | [], _ :: _ => .isFalse (fun h => List.noConfusion h)
  | _ :: _, [] => .isFalse (fun h => List.noConfusion h)
  | x :: xs, y :: ys =>
    match jvalDecEq x y with
    | .isFalse h1 => .isFalse (fun h => h1 (by injection h))
    | .isTrue h1 =>
      match jvalListDecEq xs ys with
      | .isTrue h2 => .isTrue (by rw [h1, h2])
      | .isFalse h2 => .isFalse (fun h => h2 (by injection h))

/-- Decidable equality for association lists of `JVal`. -/
def jvalFieldsDecEq : (fs gs : List (String × JVal)) → Decidable (fs = gs)
  | [], [] => .isTrue rfl
  | [], _ :: _ => .isFalse (fun h => List.noConfusion h)
  | _ :: _, [] => .isFalse (fun h => List.noConfusion h)
  | (k1, v1) :: fs, (k2, v2) :: gs =>
    if hk : k1 = k2 then
      match jvalDecEq v1 v2 with
      | .isFalse h1 =>
        .isFalse (fun h => by
          injection h with h1' h2'
          exact h1 (by injection h1'))
      | .isTrue h1 =>
        match jvalFieldsDecEq fs gs with
        | .isTrue h2 => .isTrue (by rw [hk, h1, h2])
        | .isFalse h2 => .isFalse (fun h => h2 (by injection h))
    else
      .isFalse (fun h => by
        injection h with h1' h2'
        exact hk (by injection h1'))

end

instance : DecidableEq JVal := jvalDecEq

deriving instance DecidableEq for Except

/-- A parsed JSON object: a Python dict in insertion order. -/
abbrev JDict := List (String × JVal)

/-- `d.get(k)` / `d[k]` lookup: first binding of `k`. -/
def jlookup (d : JDict) (k : String) : Option JVal :=
  (d.find? (fun kv => kv.1 = k)).map (fun kv => kv.2)

/-- `d[k] = v`: replace the existing binding in place, else append. -/
def jinsert (d : JDict) (k : String) (v : JVal) : JDict :=
  match d with
  | [] => [(k, v)]
  | kv :: rest => if kv.1 = k then (k, v) :: rest else kv :: jinsert rest k v

/-- `d.update(m)`: every binding of `m` is written into `d` in order,
overwriting existing keys. -/
def dictUpdate (d m : JDict) : JDict :=
  m.foldl (fun acc kv => jinsert acc kv.1 kv.2) d

/-- `m.get(k)` on a value that must be a dict; non-dicts have no `.get`
attribute and raise. -/
def pyGet (v : JVal) (k : String) : Except PyErr (Option JVal) :=
  match v with
  | .obj fields => .ok (jlookup fields k)
  | _ => .error .attributeError

/-- `m.get(k, default)` with a default. -/
def pyGetD (v : JVal) (k : String) (dflt : JVal) : Except PyErr JVal :=
  match v with
  | .obj fields => .ok ((jlookup fields k).getD dflt)
  | _ => .error .attributeError

/-- Python truthiness of a JSON value (`if x:`). -/
def truthy : JVal → Bool
  | .null => false
  | .bool b => b
  | .num q => q ≠ 0
  | .str s => s ≠ ""
  | .arr xs => !xs.isEmpty
  | .obj fields => !fields.isEmpty

/-! ## HTML/JS object extractor (`parser.py`, `extract_json_object`)

The Python routine walks the text from `start_index` keeping a brace
depth, an in-string flag and an escape flag, and returns
`text[start_index : i + 1]` the moment the depth returns to zero.  The
embedding scans `text.drop start` and returns the consumed span. -/

/-- The scanning loop of `extract_json_object`: remaining characters,
`brace_count`, `in_string`, `escape`.  Returns the consumed span up to and
including the brace closing the object, or `none` when the text runs out. -/
def scanJson : List Char → Int → Bool → Bool → Option (List Char)
  | [], _, _, _ => none
  | c :: rest, depth, inStr, esc =>
    if inStr then
      if esc then (scanJson rest depth true false).map (fun t => c :: t)
      else if c = '\\' then (scanJson rest depth true true).map (fun t => c :: t)
      else if c = '"' then (scanJson rest depth false esc).map (fun t => c :: t)
      else (scanJson rest depth true esc).map (fun t => c :: t)
    else if c = '"' then (scanJson rest depth true esc).map (fun t => c :: t)
    else if c = '{' then (scanJson rest (depth + 1) inStr esc).map (fun t => c :: t)
    else if c = '}' then
      if depth - 1 = 0 then some [c]
      else (scanJson rest (depth - 1) inStr esc).map (fun t => c :: t)
    else (scanJson rest depth inStr esc).map (fun t => c :: t)

/-- `IndygoParser.extract_json_object(text, start_index)`. -/
def extract_json_object (text : List Char) (start : Nat) : Option (List Char) :=
  scanJson (text.drop start) 0 false false

theorem scanJson_openBrace (rest : List Char) (d : Int) :
    scanJson ('{' :: rest) d false false =
      (scanJson rest (d + 1) false false).map (fun t => '{' :: t) := by
  simp [scanJson]

theorem scanJson_closeBrace (rest : List Char) (d : Int) (hd : ¬d - 1 = 0) :
    scanJson ('}' :: rest) d false false =
      (scanJson rest (d - 1) false false).map (fun t => '}' :: t) := by
  simp [scanJson, hd]

theorem scanJson_closeBrace_done (rest : List Char) (d : Int) (hd : d - 1 = 0) :
    scanJson ('}' :: rest) d false false = some ['}'] := by
  simp [scanJson, hd]

/-! Specification grammar for claim C4, written from the claim's words: a
well-formed object is `{` body `}` where the body consists of plain
characters, complete double-quoted strings (escapes understood,
braces inside them inert), and nested well-formed objects. -/

/-- Character sequence forming the interior of a double-quoted string:
no unescaped quote, a backslash escapes the next character. -/
inductive StrChars : List Char → Prop where
  | nil : StrChars []
  | plain (c : Char) {s : List Char} (h1 : c ≠ '"') (h2 : c ≠ '\\') :
      StrChars s → StrChars (c :: s)
  | esc (c : Char) {s : List Char} : StrChars s → StrChars ('\\' :: c :: s)

/-- Interior of a well-formed object: plain characters (no brace, no
quote), complete quoted strings, and nested braced objects. -/
inductive JBody : List Char → Prop where
  | nil : JBody []
  | plain (c : Char) {s : List Char}
      (h1 : c ≠ '"') (h2 : c ≠ '{') (h3 : c ≠ '}') :
      JBody s → JBody (c :: s)
  | str {b s : List Char} : StrChars b → JBody s →
      JBody ('"' :: b ++ '"' :: s)
  | obj {inner s : List Char} : JBody inner → JBody s →
      JBody ('{' :: inner ++ '}' :: s)

/-- A prefix of a concatenation is a prefix of the left part, or the left
part followed by a prefix of the right part. -/
theorem prefixAppendCases {p xs ys : List Char} (h : p <+: xs ++ ys) :
    p <+: xs ∨ ∃ q, q <+: ys ∧ p = xs ++ q := by
  induction xs generalizing p with
  | nil => exact Or.inr ⟨p, by simpa using h, by simp⟩
  | cons x xs ih =>
    cases p with
    | nil => exact Or.inl (List.nil_prefix)
    | cons a p' =>
      rw [List.cons_append, List.cons_prefix_cons] at h
      obtain ⟨rfl, h'⟩ := h
      rcases ih h' with h'' | ⟨q, hq, rfl⟩
      · exact Or.inl (List.cons_prefix_cons.mpr ⟨rfl, h''⟩)
      · exact Or.inr ⟨q, hq, rfl⟩

/-- Scanning a complete quoted-string interior followed by the closing
quote leaves the scanner exactly past the string, depth untouched. -/
theorem scanJson_string {b : List Char} (hb : StrChars b) :
    ∀ (rest : List Char) (d : Int),
      scanJson (b ++ '"' :: rest) d true false =
        (scanJson rest d false false).map (fun t => b ++ '"' :: t) := by
  induction hb with
  | nil =>
    intro rest d
    simp [scanJson]
  | plain c h1 h2 _ ih =>
    intro rest d
    simp [scanJson, h1, h2, ih, Option.map_map, Function.comp_def]
  | esc c _ ih =>
    intro rest d
    simp [scanJson, ih, Option.map_map, Function.comp_def]

/-- Scanning a well-formed body at positive depth consumes exactly the
body: the depth never returns to zero inside it. -/
theorem scanJson_body {body : List Char} (hb : JBody body) :
    ∀ (rest : List Char) (d : Int), 1 ≤ d →
      scanJson (body ++ rest) d false false =
        (scanJson rest d false false).map (fun t => body ++ t) := by
  induction hb with
  | nil =>
    intro rest d _
    simp
  | plain c h1 h2 h3 _ ih =>
    intro rest d hd
    simp [scanJson, h1, h2, h3, ih rest d hd, Option.map_map, Function.comp_def]
  | str hstr _ ih =>
    intro rest d hd
    simp only [List.cons_append, List.append_assoc]
    simp [scanJson, scanJson_string hstr, ih rest d hd, Option.map_map,
      Function.comp_def]
  | obj hinner _ ihinner ihs =>
    intro rest d hd
    simp only [List.cons_append, List.append_assoc]
    rw [scanJson_openBrace, ihinner _ (d + 1) (by omega),
      scanJson_closeBrace _ (d + 1) (by omega), Int.add_sub_cancel, ihs rest d hd]
    simp [Option.map_map, Function.comp_def]

/-- Scanning any proper portion of a quoted-string interior runs off the
end of the text without the scanner ever closing the object. -/
theorem scanJson_string_trunc {b : List Char} (hb : StrChars b) :
    ∀ (p : List Char) (d : Int), p <+: b →
      scanJson p d true false = none := by
  induction hb with
  | nil =>
    intro p d hp
    rw [List.prefix_nil] at hp
    subst hp
    rfl
  | plain c h1 h2 _ ih =>
    intro p d hp
    cases p with
    | nil => rfl
    | cons a p' =>
      rw [List.cons_prefix_cons] at hp
      obtain ⟨rfl, hp'⟩ := hp
      simp [scanJson, h1, h2, ih p' d hp']
  | esc c _ ih =>
    intro p d hp
    cases p with
    | nil => rfl
    | cons a p' =>
      rw [List.cons_prefix_cons] at hp
      obtain ⟨rfl, hp'⟩ := hp
      cases p' with
      | nil =>
        simp [scanJson]
      | cons a' p'' =>
        rw [List.cons_prefix_cons] at hp'
        obtain ⟨rfl, hp''⟩ := hp'
        simp [scanJson, ih p'' d hp'']

/-- Scanning any prefix of a well-formed body at positive depth runs off
the end: the braces never balance inside a body. -/
theorem scanJson_body_trunc {body : List Char} (hb : JBody body) :
    ∀ (p : List Char) (d : Int), 1 ≤ d → p <+: body →
      scanJson p d false false = none := by
  induction hb with
  | nil =>
    intro p d _ hp
    rw [List.prefix_nil] at hp
    subst hp
    rfl
  | plain c h1 h2 h3 _ ih =>
    intro p d hd hp
    cases p with
    | nil => rfl
    | cons a p' =>
      rw [List.cons_prefix_cons] at hp
      obtain ⟨rfl, hp'⟩ := hp
      simp [scanJson, h1, h2, h3, ih p' d hd hp']
  | str hstr _ ihs =>
    intro p d hd hp
    cases p with
    | nil => rfl
    | cons a p' =>
      rw [List.cons_append, List.cons_prefix_cons] at hp
      obtain ⟨rfl, hp'⟩ := hp
      have hstep : scanJson ('"' :: p') d false false =
          (scanJson p' d true false).map (fun t => '"' :: t) := by
        simp [scanJson]
      rw [hstep]
      rcases prefixAppendCases hp' with h | ⟨q, hq, rfl⟩
      · simp [scanJson_string_trunc hstr p' d h]
      · cases q with
        | nil =>
          have h0 := scanJson_string_trunc hstr _ d (List.prefix_refl _)
          simp [h0]
        | cons b' q' =>
          rw [List.cons_prefix_cons] at hq
          obtain ⟨rfl, hq'⟩ := hq
          rw [scanJson_string hstr]
          simp [ihs q' d hd hq']
  | obj hinner _ ihinner ihs =>
    intro p d hd hp
    cases p with
    | nil => rfl
    | cons a p' =>
      rw [List.cons_append, List.cons_prefix_cons] at hp
      obtain ⟨rfl, hp'⟩ := hp
      rw [scanJson_openBrace]
      rcases prefixAppendCases hp' with h | ⟨q, hq, rfl⟩
      · simp [ihinner p' (d + 1) (by omega) h]
      · cases q with
        | nil =>
          have h0 := ihinner _ (d + 1) (by omega) (List.prefix_refl _)
          simp [h0]
        | cons b' q' =>
          rw [List.cons_prefix_cons] at hq
          obtain ⟨rfl, hq'⟩ := hq
          rw [scanJson_body hinner _ (d + 1) (by omega),
            scanJson_closeBrace _ (d + 1) (by omega)]
          simp [ihs q' d hd hq']

/-- C4: for every text and start index pointing at the opening brace of a
well-formed JSON object embedded in the text (`JBody` interior: braces in
double-quoted strings, including after backslash escapes, do not affect
the depth count), `extract_json_object` returns exactly the substring from
that brace through the matching closing brace; and for every text that
ends before the braces balance (a proper prefix of such an object after
the prefix text), it returns the sentinel `none`. -/
theorem C4_extract_json_object_correct
    (pre body suf : List Char) (hb : JBody body) :
    extract_json_object (pre ++ ('{' :: (body ++ '}' :: suf))) pre.length =
        some ('{' :: (body ++ ['}'])) ∧
      ∀ p, p <+: '{' :: (body ++ ['}']) → p ≠ '{' :: (body ++ ['}']) →
        extract_json_object (pre ++ p) pre.length = none := by
  constructor
  · rw [extract_json_object, List.drop_left, scanJson_openBrace,
      scanJson_body hb _ (0 + 1) (by omega),
      scanJson_closeBrace_done _ (0 + 1) (by omega)]
    simp
  · intro p hp hne
    rw [extract_json_object, List.drop_left]
    cases p with
    | nil => rfl
    | cons a p' =>
      rw [List.cons_prefix_cons] at hp
      obtain ⟨rfl, hp'⟩ := hp
      rw [scanJson_openBrace]
      rcases prefixAppendCases hp' with h | ⟨q, hq, rfl⟩
      · simp [scanJson_body_trunc hb p' 1 (by omega) h]
      · cases q with
        | nil =>
          have h0 := scanJson_body_trunc hb _ 1 (by omega) (List.prefix_refl _)
          simp [h0]
        | cons b' q' =>
          rw [List.cons_prefix_cons] at hq
          obtain ⟨rfl, hq'⟩ := hq
          rw [List.prefix_nil] at hq'
          subst hq'
          exact absurd rfl hne

/-- Witness for C4 at the object `{"a\"{"}` embedded in `v={"a\"{"};`:
extraction returns the balanced span (the brace inside the string and the
escaped quote are inert), and the text truncated mid-string yields
`none`. -/
theorem C4_extract_json_object_correct_witness :
    extract_json_object
        ('v' :: '=' :: '{' :: '"' :: 'a' :: '\\' :: '"' :: '{' :: '"' :: '}'
          :: ';' :: []) 2 =
        some ('{' :: '"' :: 'a' :: '\\' :: '"' :: '{' :: '"' :: '}' :: []) ∧
      extract_json_object ('v' :: '=' :: '{' :: '"' :: 'a' :: []) 2 = none := by
  have hstr : StrChars ('a' :: '\\' :: '"' :: '{' :: []) :=
    .plain 'a' (by decide) (by decide)
      (.esc '"' (.plain '{' (by decide) (by decide) .nil))
  have hb : JBody ('"' :: 'a' :: '\\' :: '"' :: '{' :: '"' :: []) :=
    JBody.str hstr JBody.nil
  have h := C4_extract_json_object_correct ('v' :: '=' :: [])
    ('"' :: 'a' :: '\\' :: '"' :: '{' :: '"' :: []) (';' :: []) hb
  exact ⟨h.1, h.2 ('{' :: '"' :: 'a' :: []) (by decide) (by decide)⟩

/-! ## Discovery parser (`parser.py`, `parse_pool_ids`)

`parse_pool_ids(html, pool_id)` first locates the `currentPool = {...}`
assignment with a regex, extracts the object with `extract_json_object`,
and decodes it with `json.loads`; any failure on that path leaves
`pool_metadata` empty.  The embedding starts from the decoded result: the
argument is `none` when the variable was not found, extraction failed or
the JSON did not decode, and `some` of the decoded dict otherwise (the
decoded value is always a dict because extraction starts at an opening
brace).  The module-selection logic below is transcribed line by line. -/

/-- The predicate of the `next((m for m in modules if m.get("type") == ty))`
searches; a list entry that is not a dict has no `.get` and raises. -/
def typeMatches (ty : String) (m : JVal) : Except PyErr Bool := do
  pure (decide ((← pyGet m "type") = some (.str ty)))

/-- `next((m for m in modules if p(m)), None)`: first element satisfying
the (fallible) predicate. -/
def pyFindFirst (p : JVal → Except PyErr Bool) : List JVal → Except PyErr (Option JVal)
  | [] => .ok none
  | m :: ms => do
    if (← p m) then pure (some m) else pyFindFirst p ms

/-- Python `[-6:]` applied to `lr_pc.get("serialNumber")`: strings and
lists slice to their last six items; `None`, numbers, booleans and dicts
raise `TypeError`. -/
def pySliceLast6 : Option JVal → Except PyErr JVal
  | some (.str t) => .ok (.str (t.takeRight 6))
  | some (.arr xs) => .ok (.arr (xs.drop (xs.length - 6)))
  | _ => .error .typeError

/-- Python `str.split(sep)` for a single-character separator, written
structurally so concrete instances compute. -/
def splitOnChar (sep : Char) : List Char → List (List Char)
  | [] => [[]]
  | c :: rest =>
    match splitOnChar sep rest with
    | [] => [[]]
    | p :: ps => if c = sep then [] :: p :: ps else (c :: p) :: ps

/-- `name.split("-")` as a string operation. -/
def pySplitHyphen (s : String) : List String :=
  (splitOnChar '-' s.toList).map String.mk

/-- Python `.split("-")` on the value of `lr_pc.get("name", "")`: only
strings have `.split`. -/
def pySplitName : JVal → Except PyErr (List String)
  | .str s => .ok (pySplitHyphen s)
  | _ => .error .attributeError

/-- `IndygoParser.parse_pool_ids`, from the decoded `currentPool` object
onwards.  Returns the `(pool_address, relay_id, pool_metadata)` triple.
A `modules` value that is not a list breaks the generator iteration: an
empty string or dict iterates zero items (both searches find nothing),
a non-empty one yields elements without `.get`, and other scalars are not
iterable at all. -/
def parse_pool_ids (currentPool : Option JDict) :
    Except PyErr (Option JVal × Option JVal × JDict) := do
  let pool_metadata := currentPool.getD []
  if pool_metadata.isEmpty then
    return (none, none, [])
  match jlookup pool_metadata "modules" with
  | none => return (none, none, pool_metadata)
  | some modsVal =>
    match modsVal with
    | .arr modules =>
      let gateway ← pyFindFirst (typeMatches "lr-mb-10") modules
      let lr_pc ← pyFindFirst (typeMatches "lr-pc") modules
      match lr_pc with
      | some pc =>
        let gw := gateway.getD pc
        let pool_address ← pyGet gw "serialNumber"
        let nameVal ← pyGetD pc "name" (.str "")
        let name_parts ← pySplitName nameVal
        if name_parts.length > 1 then
          return (pool_address, some (.str (name_parts.getLastD "")), pool_metadata)
        else
          let sliced ← pySliceLast6 (← pyGet pc "serialNumber")
          return (pool_address, some sliced, pool_metadata)
      | none =>
        let ipx ← pyFindFirst (typeMatches "ipx") modules
        match ipx with
        | some i =>
          return ((← pyGet i "serialNumber"), (← pyGet i "ipxRelay"), pool_metadata)
        | none => return (none, none, pool_metadata)
    | .str s => if s.isEmpty then return (none, none, pool_metadata)
                else .error .attributeError
    | .obj fs => if fs.isEmpty then return (none, none, pool_metadata)
                 else .error .attributeError
    | _ => .error .typeError

/-! Specification-side restatement of the §4.2 selection policy, written
from the spec's words, to be compared with `parse_pool_ids`. -/

/-- The discovery-relevant fields of a module, as the spec describes
them. -/
structure SpecModule where
  type : Option String
  name : Option String
  serialNumber : Option String
  ipxRelay : Option String
  deriving Repr, DecidableEq

/-- String field extraction: a non-string value does not count. -/
def asStrOpt : Option JVal → Option String
  | some (.str s) => some s
  | _ => none

/-- Abstraction of a raw module object to its discovery-relevant
fields. -/
def moduleFields (m : JVal) : SpecModule :=
  match m with
  | .obj fs =>
    { type := asStrOpt (jlookup fs "type")
      name := asStrOpt (jlookup fs "name")
      serialNumber := asStrOpt (jlookup fs "serialNumber")
      ipxRelay := asStrOpt (jlookup fs "ipxRelay") }
  | _ => ⟨none, none, none, none⟩

/-- Spec §4.2a: the suffix after the last hyphen in the name, or `none`
when the name has no hyphen. -/
def suffixAfterLastHyphen (name : String) : Option String :=
  let parts := pySplitHyphen name
  if parts.length > 1 then some (parts.getLastD "") else none

/-- Spec §4.2 selection policy: with a pool-controller (`lr-pc`) module,
the address is the gateway-typed (`lr-mb-10`) module's serial number —
the pool-controller standing in as gateway when none exists — and the
relay id is the name suffix after the last hyphen, falling back to the
last six characters of the pool-controller's serial number; with only an
`ipx` module, its serial number and its `ipxRelay` field; otherwise
discovery fails (`none`). -/
def locateSpec (mods : List SpecModule) :
    Option (Option String × Option String) :=
  match mods.find? (fun m => m.type = some "lr-pc") with
  | some pc =>
    let gw := (mods.find? (fun m => m.type = some "lr-mb-10")).getD pc
    let relay :=
      match suffixAfterLastHyphen (pc.name.getD "") with
      | some suffix => some suffix
      | none => pc.serialNumber.map (fun t => t.takeRight 6)
    some (gw.serialNumber, relay)
  | none =>
    match mods.find? (fun m => m.type = some "ipx") with
    | some i => some (i.serialNumber, i.ipxRelay)
    | none => none

/-- Vendor-type test `m.get("type") == ty` as a Boolean predicate on a
raw module value (false on non-dicts, which raise in the code). -/
def typeIs (ty : String) (m : JVal) : Bool :=
  match m with
  | .obj fs => decide (jlookup fs "type" = some (.str ty))
  | _ => false

/-- A field is string-shaped: absent or a string. -/
def strField (fs : JDict) (k : String) : Bool :=
  match jlookup fs k with
  | none => true
  | some (.str _) => true
  | some _ => false

/-- A module value as the vendor's device page actually delivers it: a
dict whose name, serialNumber and ipxRelay fields, when present, are
strings. -/
def wellShapedModule : JVal → Bool
  | .obj fs => strField fs "name" && strField fs "serialNumber" && strField fs "ipxRelay"
  | _ => false

/-- The relay id of a pool-controller module is derivable: its name has a
hyphen, or it has a serial number to slice. -/
def relayDerivable (m : JVal) : Bool :=
  decide ((pySplitHyphen ((moduleFields m).name.getD "")).length > 1) ||
    (moduleFields m).serialNumber.isSome

/-- A string-shaped field round-trips through `asStrOpt`. -/
theorem strField_shape {fs : JDict} {k : String} (h : strField fs k = true) :
    jlookup fs k = (asStrOpt (jlookup fs k)).map JVal.str := by
  rw [strField] at h
  revert h
  cases jlookup fs k with
  | none => intro _; rfl
  | some v => cases v <;> intro h <;> simp_all [asStrOpt]

theorem wellShaped_fields {m : JVal} (h : wellShapedModule m = true) :
    ∃ fs, m = .obj fs ∧
      jlookup fs "name" = (moduleFields m).name.map JVal.str ∧
      jlookup fs "serialNumber" = (moduleFields m).serialNumber.map JVal.str ∧
      jlookup fs "ipxRelay" = (moduleFields m).ipxRelay.map JVal.str := by
  cases m with
  | obj fs =>
    simp only [wellShapedModule, Bool.and_eq_true] at h
    obtain ⟨⟨h1, h2⟩, h3⟩ := h
    exact ⟨fs, rfl, by simpa [moduleFields] using strField_shape h1,
      by simpa [moduleFields] using strField_shape h2,
      by simpa [moduleFields] using strField_shape h3⟩
  | null => exact absurd h (by simp [wellShapedModule])
  | bool b => exact absurd h (by simp [wellShapedModule])
  | num q => exact absurd h (by simp [wellShapedModule])
  | str s => exact absurd h (by simp [wellShapedModule])
  | arr xs => exact absurd h (by simp [wellShapedModule])

/-- The generator search of `parse_pool_ids` evaluates, on a list of
dicts, to a plain `find?` by vendor type. -/
theorem pyFindFirst_typeMatches (ty : String) (ms : List JVal)
    (h : ∀ m ∈ ms, wellShapedModule m = true) :
    pyFindFirst (typeMatches ty) ms = .ok (ms.find? (typeIs ty)) := by
  induction ms with
  | nil => rfl
  | cons m ms ih =>
    obtain ⟨fs, rfl, -, -, -⟩ := wellShaped_fields (h m (by simp))
    have hrest : ∀ m' ∈ ms, wellShapedModule m' = true := by
      intro m' hm'; exact h m' (by simp [hm'])
    by_cases hc : jlookup fs "type" = some (.str ty)
    · simp [pyFindFirst, typeMatches, pyGet, hc, List.find?_cons, typeIs,
        Except.bind, bind, pure, Except.pure]
    · simp [pyFindFirst, typeMatches, pyGet, hc, List.find?_cons, typeIs,
        Except.bind, bind, pure, Except.pure, ih hrest]

/-- `asStrOpt` reflects string equality of the underlying value. -/
theorem asStrOpt_eq (x : Option JVal) (ty : String) :
    (asStrOpt x = some ty) ↔ (x = some (.str ty)) := by
  cases x with
  | none => simp [asStrOpt]
  | some v => cases v <;> simp [asStrOpt]

/-- Pointwise agreement of the raw type test with its abstraction. -/
theorem typeIs_spec (ty : String) (m : JVal) :
    decide ((moduleFields m).type = some ty) = typeIs ty m := by
  cases m with
  | obj fs => simp [moduleFields, typeIs, asStrOpt_eq]
  | null => simp [moduleFields, typeIs, asStrOpt]
  | bool b => simp [moduleFields, typeIs, asStrOpt]
  | num q => simp [moduleFields, typeIs, asStrOpt]
  | str s => simp [moduleFields, typeIs, asStrOpt]
  | arr xs => simp [moduleFields, typeIs, asStrOpt]

/-- `find?` by type commutes with the abstraction to `SpecModule`. -/
theorem find?_map_moduleFields (ty : String) (ms : List JVal) :
    (ms.map moduleFields).find? (fun sm => sm.type = some ty) =
      (ms.find? (typeIs ty)).map moduleFields := by
  rw [List.find?_map]
  have : ((fun sm => decide (sm.type = some ty)) ∘ moduleFields) = typeIs ty := by
    funext m
    exact typeIs_spec ty m
  rw [this]

theorem exceptBind_ok {ε α β : Type} (a : α) (f : α → Except ε β) :
    (Except.ok a : Except ε α) >>= f = f a := rfl

theorem exceptPure_eq {ε α : Type} (a : α) :
    (pure a : Except ε α) = Except.ok a := rfl

/-- On well-shaped metadata, `parse_pool_ids` computes exactly the §4.2
selection policy `locateSpec` over the abstracted modules (with a failed
discovery yielding the `(None, None)` pair). -/
theorem parse_pool_ids_locateSpec (meta : JDict) (mods : List JVal)
    (hmods : jlookup meta "modules" = some (.arr mods))
    (hws : ∀ m ∈ mods, wellShapedModule m = true)
    (hfb : ∀ m ∈ mods, typeIs "lr-pc" m = true → relayDerivable m = true) :
    parse_pool_ids (some meta) =
      .ok (match locateSpec (mods.map moduleFields) with
        | some (a, r) => (a.map JVal.str, r.map JVal.str, meta)
        | none => (none, none, meta)) := by
  have hne : meta.isEmpty = false := by
    cases meta
    · simp [jlookup] at hmods
    · rfl
  rw [parse_pool_ids]
  simp only [Option.getD, hne, Bool.false_eq_true, if_false, hmods,
    pyFindFirst_typeMatches _ _ hws, exceptBind_ok, exceptPure_eq]
  rw [locateSpec, find?_map_moduleFields, find?_map_moduleFields,
    find?_map_moduleFields]
  cases hpc : mods.find? (typeIs "lr-pc") with
  | some pc =>
    have hpcty : typeIs "lr-pc" pc = true := List.find?_some hpc
    obtain ⟨fs, rfl, hname, hserial, -⟩ :=
      wellShaped_fields (hws pc (List.mem_of_find?_eq_some hpc))
    simp only [Option.map_some']
    have hnameval : (jlookup fs "name").getD (.str "") =
        .str ((moduleFields (.obj fs)).name.getD "") := by
      rw [hname]
      cases (moduleFields (.obj fs)).name <;> rfl
    have hserialmap : ∀ g : JVal, g ∈ mods ∨ g = .obj fs →
        pyGet g "serialNumber" =
          .ok ((moduleFields g).serialNumber.map JVal.str) := by
      intro g hg
      rcases hg with hg | rfl
      · obtain ⟨gfs, rfl, -, hgser, -⟩ := wellShaped_fields (hws g hg)
        simp [pyGet, hgser]
      · simp [pyGet, hserial]
    have hser : (pySplitHyphen ((moduleFields (.obj fs)).name.getD "")).length ≤ 1 →
        ∃ t, (moduleFields (.obj fs)).serialNumber = some t := by
      intro hlen
      have := hfb _ (List.mem_of_find?_eq_some hpc) hpcty
      rw [relayDerivable, Bool.or_eq_true, decide_eq_true_iff] at this
      rcases this with h | h
      · omega
      · exact Option.isSome_iff_exists.mp h
    cases hgw : mods.find? (typeIs "lr-mb-10") with
    | some g =>
      simp only [Option.map_some', Option.getD_some]
      rw [hserialmap g (Or.inl (List.mem_of_find?_eq_some hgw))]
      simp only [exceptBind_ok, pyGetD, hnameval, pySplitName, exceptPure_eq]
      by_cases hlen :
          (pySplitHyphen ((moduleFields (.obj fs)).name.getD "")).length > 1
      · simp [hlen, suffixAfterLastHyphen]
      · obtain ⟨t, ht⟩ := hser (by omega)
        rw [if_neg hlen]
        simp only [pyGet, hserial, ht, exceptBind_ok, pySliceLast6,
          Option.map_some', exceptPure_eq]
        simp [suffixAfterLastHyphen, hlen, ht]
    | none =>
      simp only [Option.map_none', Option.getD_none]
      rw [hserialmap (.obj fs) (Or.inr rfl)]
      simp only [exceptBind_ok, pyGetD, hnameval, pySplitName, exceptPure_eq]
      by_cases hlen :
          (pySplitHyphen ((moduleFields (.obj fs)).name.getD "")).length > 1
      · simp [hlen, suffixAfterLastHyphen]
      · obtain ⟨t, ht⟩ := hser (by omega)
        rw [if_neg hlen]
        simp only [pyGet, hserial, ht, exceptBind_ok, pySliceLast6,
          Option.map_some', exceptPure_eq]
        simp [suffixAfterLastHyphen, hlen, ht]
  | none =>
    simp only [Option.map_none']
    cases hipx : mods.find? (typeIs "ipx") with
    | some i =>
      obtain ⟨ifs, rfl, -, hiser, hirel⟩ :=
        wellShaped_fields (hws i (List.mem_of_find?_eq_some hipx))
      simp [pyGet, hiser, hirel, exceptBind_ok, exceptPure_eq]
    | none => simp

/-- The §8 discovery fixture modules: one gateway-typed module with
serial `GATEWAY123` and one pool-controller module named `Pool-ABC`. -/
def fixtureModsA : List JVal :=
  [.obj [("type", .str "lr-mb-10"), ("serialNumber", .str "GATEWAY123"),
         ("name", .str "Gateway-01")],
   .obj [("type", .str "lr-pc"), ("serialNumber", .str "LRPC123"),
         ("name", .str "Pool-ABC")]]

/-- The decoded `currentPool` of the first §8 discovery fixture. -/
def fixtureMetaA : JDict := [("id", .num 123), ("modules", .arr fixtureModsA)]

/-- The §8 fallback fixture modules: a single IPX module with serial
`IPXSER1` and `ipxRelay` `R9`. -/
def fixtureModsB : List JVal :=
  [.obj [("type", .str "ipx"), ("serialNumber", .str "IPXSER1"),
         ("ipxRelay", .str "R9")]]

/-- The decoded `currentPool` of the §8 fallback fixture. -/
def fixtureMetaB : JDict := [("modules", .arr fixtureModsB)]

/-- C5: for every decoded `currentPool` whose modules list is well-shaped
(and whose pool-controller, if any, admits a relay id): when a
pool-controller (`lr-pc`) module exists, `parse_pool_ids` returns the
gateway-typed (`lr-mb-10`) module's serial number as the address (the
pool-controller's own serial number when no gateway module exists) and
the suffix after the last hyphen of the pool-controller's name as the
relay id, falling back to the last six characters of its serial number
when the name has no hyphen; when no pool-controller exists but an `ipx`
module does, it returns that module's serial number and its `ipxRelay`
field — exactly the spec-side `locateSpec` selection policy. -/
theorem C5_parse_pool_ids_follows_spec_policy
    (meta : JDict) (mods : List JVal) (a r : Option String)
    (hmods : jlookup meta "modules" = some (.arr mods))
    (hws : ∀ m ∈ mods, wellShapedModule m = true)
    (hfb : ∀ m ∈ mods, typeIs "lr-pc" m = true → relayDerivable m = true)
    (hloc : locateSpec (mods.map moduleFields) = some (a, r)) :
    parse_pool_ids (some meta) = .ok (a.map JVal.str, r.map JVal.str, meta) := by
  rw [parse_pool_ids_locateSpec meta mods hmods hws hfb, hloc]

/-- Witness for C5 on the two §8 fixtures: the gateway/pool-controller
fixture yields `(GATEWAY123, ABC)` and the IPX fixture yields
`(IPXSER1, R9)`. -/
theorem C5_parse_pool_ids_follows_spec_policy_witness :
    parse_pool_ids (some fixtureMetaA) =
        .ok (some (.str "GATEWAY123"), some (.str "ABC"), fixtureMetaA) ∧
      parse_pool_ids (some fixtureMetaB) =
        .ok (some (.str "IPXSER1"), some (.str "R9"), fixtureMetaB) :=
  ⟨C5_parse_pool_ids_follows_spec_policy fixtureMetaA fixtureModsA
      (some "GATEWAY123") (some "ABC") (by decide) (by decide) (by decide)
      (by decide),
    C5_parse_pool_ids_follows_spec_policy fixtureMetaB fixtureModsB
      (some "IPXSER1") (some "R9") (by decide) (by decide) (by decide)
      (by decide)⟩

/-- C10 counterexample: a `currentPool` whose pool-controller module has
a hyphen-less name and no `serialNumber` field makes `parse_pool_ids`
raise `TypeError` (`lr_pc.get("serialNumber")[-6:]` subscripts `None`),
so the function is not total at its public interface. -/
theorem C10_counterexample_not_total :
    parse_pool_ids (some [("modules", .arr
      [.obj [("type", .str "lr-pc"), ("name", .str "Pump")]])]) =
      .error .typeError := by decide

/-- C10 amended: `parse_pool_ids` returns a `(address, relay_id,
metadata)` result without raising — missing fields reported as absent
values — for every decoded `currentPool` whose `modules` entry, when
present, is a list of well-shaped module dicts in which every
pool-controller module either has a hyphen in its name or carries a
serial number; a hyphen-less pool-controller without a serial number
instead raises `TypeError`. -/
theorem C10_parse_pool_ids_no_raise
    (cp : Option JDict)
    (h : ∀ meta, cp = some meta → ∀ v, jlookup meta "modules" = some v →
      ∃ mods, v = .arr mods ∧ (∀ m ∈ mods, wellShapedModule m = true) ∧
        (∀ m ∈ mods, typeIs "lr-pc" m = true → relayDerivable m = true)) :
    ∃ out, parse_pool_ids cp = .ok out := by
  cases cp with
  | none => exact ⟨(none, none, []), rfl⟩
  | some meta =>
    cases hemp : meta.isEmpty with
    | true =>
      refine ⟨(none, none, []), ?_⟩
      rw [parse_pool_ids]
      simp [hemp, exceptPure_eq]
    | false =>
      cases hmv : jlookup meta "modules" with
      | none =>
        refine ⟨(none, none, meta), ?_⟩
        rw [parse_pool_ids]
        simp [hemp, hmv, exceptPure_eq, exceptBind_ok]
      | some v =>
        obtain ⟨mods, rfl, hws, hfb⟩ := h meta rfl v hmv
        exact ⟨_, parse_pool_ids_locateSpec meta mods hmv hws hfb⟩

/-- Witness for the amended C10 on the IPX fixture. -/
theorem C10_parse_pool_ids_no_raise_witness :
    ∃ out, parse_pool_ids (some fixtureMetaB) = .ok out :=
  C10_parse_pool_ids_no_raise (some fixtureMetaB) (by
    intro meta hm v hv
    injection hm with hm'
    subst hm'
    rw [(by decide : jlookup fixtureMetaB "modules" =
      some (JVal.arr fixtureModsB))] at hv
    injection hv with hv'
    subst hv'
    exact ⟨fixtureModsB, rfl, by decide, by decide⟩)

/-! ## Data model (`models.py`) and normalizer (`parser.py`, `parse_data`) -/

/-- `IndygoSensorData` (models.py): one sensor value. -/
structure IndygoSensorData where
  key : String
  name : Option String := none
  value : Option JVal := none
  unit : Option String := none
  device_class : Option String := none
  state_class : Option String := none
  entity_category : Option String := none
  extra_attributes : JDict := []
  deriving Repr, DecidableEq

/-- `IndygoModuleData` (models.py): a module record.  `type` and `name`
hold whatever JSON value `m.get(...)` produced. -/
structure IndygoModuleData where
  id : String
  type : JVal
  name : JVal
  sensors : List (String × IndygoSensorData) := []
  raw_data : JVal := .obj []
  programs : List JVal := []
  filtration_program : Option JVal := none
  deriving Repr, DecidableEq

/-- `IndygoPoolData` (models.py): the aggregated pool data. -/
structure IndygoPoolData where
  pool_id : String
  address : Option String := none
  relay_id : Option String := none
  sensors : List (String × IndygoSensorData) := []
  modules : List (String × IndygoModuleData) := []
  raw_data : JDict := []
  pool_status : List (String × IndygoSensorData) := []
  deriving Repr, DecidableEq

/-- Python dict assignment `d[k] = v` for the sensor and module maps:
replace in place or append. -/
def mapInsert {α : Type} (d : List (String × α)) (k : String) (v : α) :
    List (String × α) :=
  match d with
  | [] => [(k, v)]
  | kv :: rest => if kv.1 = k then (k, v) :: rest else kv :: mapInsert rest k v

/-- Python `str(x)` for the values appearing as module ids.  Container
values render as a stand-in (no claim depends on their text); rational
renderings stand in for Python float formatting. -/
def pyStr : Option JVal → String
  | none => "None"
  | some .null => "None"
  | some (.bool true) => "True"
  | some (.bool false) => "False"
  | some (.num q) => toString q
  | some (.str s) => s
  | some (.arr _) => "[...]"
  | some (.obj _) => "\x7b...\x7d"

/-- The `root_sensors_map` dict literal of `_parse_root_sensors`, in
insertion order: key to (name, device_class, unit). -/
def root_sensors_map : List (String × String × Option String × Option String) :=
  [("temperature", "Water Temperature", some "temperature", some "°C"),
   ("ph", "pH", some "ph", none),
   ("redox", "Redox", none, some "mV"),
   ("orp", "ORP", none, some "mV"),
   ("salt", "Salt", none, some "g/L"),
   ("chlorineRate", "Chlorine", none, some "ppm")]

/-- `IndygoParser._parse_root_sensors`: for each known key present and
non-null, write a sensor. -/
def _parse_root_sensors (json_data : JDict) (pool_data : IndygoPoolData) :
    IndygoPoolData :=
  root_sensors_map.foldl (fun pd entry =>
    match jlookup json_data entry.1 with
    | some v =>
      if v ≠ .null then
        { pd with sensors := (mapInsert pd.sensors entry.1
            { key := entry.1, name := some entry.2.1, value := some v,
              unit := entry.2.2.2, device_class := entry.2.2.1 }) }
      else pd
    | none => pd) pool_data

/-- One iteration of the `sensorState` loop: it reads `index` and `value`
(raising on a non-dict item) and otherwise does nothing — the duplicate
temperature sensor was removed and the body is `pass`. -/
def sensorStateItem (item : JVal) : Except PyErr Unit := do
  let _ ← pyGet item "index"
  let _ ← pyGet item "value"
  pure ()

/-- `IndygoParser._parse_sensor_state`. -/
def _parse_sensor_state (json_data : JDict) (pool_data : IndygoPoolData) :
    Except PyErr IndygoPoolData :=
  match jlookup json_data "sensorState" with
  | some (.arr items) => do
      items.forM sensorStateItem
      pure pool_data
  | _ => pure pool_data

/-- Python `k in v` for the membership tests of `_parse_modules`: key
containment for dicts, element membership for lists, substring for
strings, `TypeError` on other values. -/
def pyContains (k : String) (v : JVal) : Except PyErr Bool :=
  match v with
  | .obj fields => .ok (jlookup fields k).isSome
  | .arr xs => .ok (xs.any (fun x => decide (x = .str k)))
  | .str s => .ok (s.toList.tails.any (fun t => k.toList.isPrefixOf t))
  | _ => .error .typeError

/-- Python `v[k]` subscript with a string key. -/
def pySubscript (v : JVal) (k : String) : Except PyErr JVal :=
  match v with
  | .obj fields =>
    match jlookup fields k with
    | some x => .ok x
    | none => .error .keyError
  | _ => .error .typeError

/-- The type-specific sensors of one module (`_parse_modules` loop body):
an `ipx` module with `ipxData` containing `totalElectrolyseDuration`
yields the diagnostic Electrolyse Duration sensor. -/
def parseModuleSensors (m_type : JVal) (module : JVal) :
    Except PyErr (List (String × IndygoSensorData)) := do
  if m_type = .str "ipx" then
    if (← pyContains "ipxData" module) then
      let ipx_data ← pySubscript module "ipxData"
      if (← pyContains "totalElectrolyseDuration" ipx_data) then
        let v ← pySubscript ipx_data "totalElectrolyseDuration"
        pure (mapInsert [] "totalElectrolyseDuration"
          ({ key := "totalElectrolyseDuration",
             name := some "Electrolyse Duration",
             value := some v, unit := some "h",
             entity_category := some "diagnostic" }))
      else pure []
    else pure []
  else pure []

/-- One iteration of the `_parse_modules` loop: build the
`IndygoModuleData` for one raw module value and the key it is stored
under. -/
def parseModule (module : JVal) : Except PyErr (String × IndygoModuleData) := do
  let m_id ← pyGet module "id"
  let m_type ← pyGetD module "type" (.str "unknown")
  let m_name ← pyGetD module "name" (.str ("Module " ++ pyStr m_id))
  let sensors ← parseModuleSensors m_type module
  pure (pyStr m_id,
    { id := pyStr m_id, type := m_type, name := m_name,
      sensors := sensors, raw_data := module })

/-- `IndygoParser._parse_modules`. -/
def _parse_modules (json_data : JDict) (pool_data : IndygoPoolData) :
    Except PyErr IndygoPoolData :=
  match jlookup json_data "modules" with
  | none => pure pool_data
  | some (.arr modules) =>
    modules.foldlM (fun pd module => do
      let r ← parseModule module
      pure { pd with modules := mapInsert pd.modules r.1 r.2 }) pool_data
  | some _ => .error .typeError

/-- A key of the `get_nested` helper: an integer index or a string key. -/
inductive PyKey where
  | i (n : Int)
  | s (k : String)
  deriving Repr, DecidableEq

/-- Python list indexing with a possibly negative index. -/
def pyListIndex (xs : List JVal) (n : Int) : Option JVal :=
  if 0 ≤ n then xs.get? n.toNat
  else if (-n).toNat ≤ xs.length then xs.get? (xs.length - (-n).toNat)
  else none

/-- The `get_nested` helper of `_parse_scraped_ipx`: walk keys, returning
`None` on any miss — an out-of-range index, `int()` failing on a
non-numeric string key against a list (the keys used here never parse as
integers), a dict `.get` miss, or a non-container intermediate value. -/
def get_nested (obj : JVal) : List PyKey → JVal
  | [] => obj
  | k :: ks =>
    match obj with
    | .arr xs =>
      match k with
      | .i n =>
        match pyListIndex xs n with
        | some x => get_nested x ks
        | none => .null
      | .s _ => .null
    | .obj fields =>
      match k with
      | .s key => get_nested ((jlookup fields key).getD .null) ks
      | .i _ => get_nested .null ks
    | _ => .null

/-- `IndygoParser._parse_scraped_ipx`: positional pulls out of the
scraped `ipx_module`'s `outputs` array. -/
def _parse_scraped_ipx (json_data : JDict) (pool_data : IndygoPoolData) :
    Except PyErr IndygoPoolData :=
  match jlookup json_data "ipx_module" with
  | none => pure pool_data
  | some ipx_mod => do
    let outputs ← pyGetD ipx_mod "outputs" (.arr [])
    let salt := get_nested outputs [.i 1, .s "ipxData", .s "saltValue"]
    let pd := pool_data
    let pd := if salt ≠ .null then
        { pd with sensors := (mapInsert pd.sensors "ipx_salt"
            { key := "ipx_salt", name := some "Salt Level (IPX)",
               value := some salt, unit := some "g/L" }) }
      else pd
    let ph_set := get_nested outputs [.i 0, .s "ipxData", .s "pHSetpoint"]
    let pd := if ph_set ≠ .null then
        { pd with sensors := (mapInsert pd.sensors "ph_setpoint"
            { key := "ph_setpoint", name := some "pH Setpoint",
               value := some ph_set, unit := none }) }
      else pd
    let prod_set := get_nested outputs [.i 1, .s "ipxData", .s "percentageSetpoint"]
    let pd := if prod_set ≠ .null then
        { pd with sensors := (mapInsert pd.sensors "production_setpoint"
            { key := "production_setpoint", name := some "Production Setpoint",
               value := some prod_set, unit := some "%" }) }
      else pd
    let elec_mode := get_nested outputs [.i 1, .s "ipxData", .s "electrolyzerMode"]
    let pd := if elec_mode ≠ .null then
        { pd with sensors := (mapInsert pd.sensors "electrolyzer_mode"
            { key := "electrolyzer_mode", name := some "Electrolyzer Mode",
               value := some elec_mode, unit := none,
               entity_category := some "diagnostic" }) }
      else pd
    pure pd

/-- `IndygoParser.parse_data`: the normalizer. -/
def parse_data (json_data : JDict) (pool_id : String) (pool_address : String)
    (relay_id : String) : Except PyErr IndygoPoolData := do
  let pool_data : IndygoPoolData :=
    { pool_id := pool_id, address := some pool_address,
      relay_id := some relay_id, raw_data := json_data }
  let pool_data := _parse_root_sensors json_data pool_data
  let pool_data ← _parse_sensor_state json_data pool_data
  let pool_data ← _parse_modules json_data pool_data
  let pool_data ← _parse_scraped_ipx json_data pool_data
  pure pool_data

theorem exceptBind_err {ε α β : Type} (e : ε) (f : α → Except ε β) :
    (Except.error e : Except ε α) >>= f = .error e := rfl

theorem exceptBind_ok_inv {ε α β : Type} {e : Except ε α}
    {f : α → Except ε β} {b : β} (h : e >>= f = .ok b) :
    ∃ a, e = .ok a ∧ f a = .ok b := by
  cases e with
  | ok a => exact ⟨a, rfl, h⟩
  | error ex => rw [exceptBind_err] at h; simp at h

/-- Membership after a Python dict assignment. -/
theorem mapInsert_mem {α : Type} {d : List (String × α)} {k : String} {v : α}
    {kv : String × α} (h : kv ∈ mapInsert d k v) : kv = (k, v) ∨ kv ∈ d := by
  induction d with
  | nil => simpa [mapInsert] using h
  | cons hd tl ih =>
    rw [mapInsert] at h
    by_cases hk : hd.1 = k
    · rw [if_pos hk] at h
      rcases List.mem_cons.mp h with h | h
      · exact Or.inl h
      · exact Or.inr (List.mem_cons.mpr (Or.inr h))
    · rw [if_neg hk] at h
      rcases List.mem_cons.mp h with h | h
      · exact Or.inr (List.mem_cons.mpr (Or.inl h))
      · rcases ih h with h | h
        · exact Or.inl h
        · exact Or.inr (List.mem_cons.mpr (Or.inr h))

/-- Every module record built by the `_parse_modules` loop leaves
`filtration_program` and `programs` at their constructor defaults. -/
theorem parseModule_shape {module : JVal} {k : String} {md : IndygoModuleData}
    (h : parseModule module = .ok (k, md)) :
    md.filtration_program = none ∧ md.programs = [] := by
  unfold parseModule at h
  obtain ⟨a1, h1, h⟩ := exceptBind_ok_inv h
  obtain ⟨a2, h2, h⟩ := exceptBind_ok_inv h
  obtain ⟨a3, h3, h⟩ := exceptBind_ok_inv h
  obtain ⟨a4, h4, h⟩ := exceptBind_ok_inv h
  rw [exceptPure_eq] at h
  injection h with h
  injection h with hk hmd
  subst hmd
  exact ⟨rfl, rfl⟩

theorem parse_modules_foldlM {mods : List JVal} {pd out : IndygoPoolData}
    (hok : mods.foldlM (fun pd module => do
        let r ← parseModule module
        pure { pd with modules := mapInsert pd.modules r.1 r.2 }) pd = .ok out)
    (hpd : ∀ kv ∈ pd.modules, kv.2.filtration_program = none ∧ kv.2.programs = []) :
    ∀ kv ∈ out.modules, kv.2.filtration_program = none ∧ kv.2.programs = [] := by
  induction mods generalizing pd with
  | nil =>
    rw [List.foldlM_nil, exceptPure_eq] at hok
    injection hok with hok
    subst hok
    exact hpd
  | cons m ms ih =>
    rw [List.foldlM_cons] at hok
    obtain ⟨pd', h1, h2⟩ := exceptBind_ok_inv hok
    obtain ⟨r, hr, h3⟩ := exceptBind_ok_inv h1
    obtain ⟨rk, rmd⟩ := r
    rw [exceptPure_eq] at h3
    injection h3 with h3
    subst h3
    refine ih h2 ?_
    intro kv hkv
    rcases mapInsert_mem hkv with rfl | hkv
    · exact parseModule_shape hr
    · exact hpd kv hkv

theorem _parse_modules_shape {json_data : JDict} {pd out : IndygoPoolData}
    (hok : _parse_modules json_data pd = .ok out)
    (hpd : ∀ kv ∈ pd.modules, kv.2.filtration_program = none ∧ kv.2.programs = []) :
    ∀ kv ∈ out.modules, kv.2.filtration_program = none ∧ kv.2.programs = [] := by
  unfold _parse_modules at hok
  split at hok
  · rw [exceptPure_eq] at hok
    injection hok with hok
    subst hok
    exact hpd
  · exact parse_modules_foldlM hok hpd
  · simp at hok

/-- `_parse_root_sensors` writes only sensors: modules untouched. -/
theorem _parse_root_sensors_modules (json_data : JDict) (pd : IndygoPoolData) :
    (_parse_root_sensors json_data pd).modules = pd.modules := by
  unfold _parse_root_sensors
  generalize root_sensors_map = l
  induction l generalizing pd with
  | nil => rfl
  | cons e l ih =>
    rw [List.foldl_cons, ih]
    split
    · split <;> rfl
    · rfl

/-- `_parse_sensor_state` returns its input unchanged when it does not
raise (the loop body is `pass`). -/
theorem _parse_sensor_state_ok {json_data : JDict} {pd out : IndygoPoolData}
    (h : _parse_sensor_state json_data pd = .ok out) : out = pd := by
  unfold _parse_sensor_state at h
  split at h
  · obtain ⟨u, h1, h2⟩ := exceptBind_ok_inv h
    rw [exceptPure_eq] at h2
    injection h2 with h2
    exact h2.symm
  · rw [exceptPure_eq] at h
    injection h with h
    exact h.symm

/-- `_parse_scraped_ipx` writes only sensors: modules untouched. -/
theorem _parse_scraped_ipx_modules {json_data : JDict} {pd out : IndygoPoolData}
    (h : _parse_scraped_ipx json_data pd = .ok out) : out.modules = pd.modules := by
  unfold _parse_scraped_ipx at h
  split at h
  · rw [exceptPure_eq] at h
    injection h with h
    subst h
    rfl
  · obtain ⟨outs, h1, h2⟩ := exceptBind_ok_inv h
    rw [exceptPure_eq] at h2
    injection h2 with h2
    subst h2
    split_ifs <;> rfl

/-- C3: contrary to the claim, the normalizer never identifies a
filtration program: every module record in any successful `parse_data`
result carries `filtration_program = none` and an empty `programs` list —
also when the input module's `programs` contain a program whose
`programCharacteristics` `programType` is the filtration constant 4.
The record fields exist in `models.py` and `select.py` reads them, but
`_parse_modules` never assigns them. -/
theorem C3_filtration_program_never_set
    (json_data : JDict) (pool_id pool_address relay_id : String)
    (out : IndygoPoolData)
    (hok : parse_data json_data pool_id pool_address relay_id = .ok out) :
    ∀ kv ∈ out.modules,
      kv.2.filtration_program = none ∧ kv.2.programs = [] := by
  unfold parse_data at hok
  obtain ⟨pd1, h1, hok⟩ := exceptBind_ok_inv hok
  obtain ⟨pd2, h2, hok⟩ := exceptBind_ok_inv hok
  obtain ⟨pd3, h3, hok⟩ := exceptBind_ok_inv hok
  rw [exceptPure_eq] at hok
  injection hok with hok
  subst hok
  intro kv hkv
  rw [_parse_scraped_ipx_modules h3] at hkv
  refine _parse_modules_shape h2 ?_ kv hkv
  intro kv' hkv'
  rw [_parse_sensor_state_ok h1, _parse_root_sensors_modules] at hkv'
  simp at hkv'

/-- The C3 failing input: one module whose `programs` list holds a
filtration-type (`programType` 4) program with a mode. -/
def c3FailingInput : JDict :=
  [("modules", .arr [.obj
    [("id", .str "M1"),
     ("programs", .arr [.obj [("programCharacteristics",
        .obj [("programType", .num 4), ("mode", .num 2)])]])]])]

/-- The snapshot the normalizer builds from the C3 failing input. -/
def c3Out : IndygoPoolData :=
  match parse_data c3FailingInput "POOL1" "ADDR1" "RELAY1" with
  | .ok o => o
  | .error _ => { pool_id := "" }

/-- The module record for module `M1` in that snapshot. -/
def c3Module : String × IndygoModuleData :=
  c3Out.modules.headD ("", { id := "", type := .null, name := .null })

/-- Witness for C3: on the failing input, the `M1` record's
`filtration_program` is `None` and its `programs` list is empty, although
the input carried a filtration-type program. -/
theorem C3_filtration_program_never_set_witness :
    c3Module.2.filtration_program = none ∧ c3Module.2.programs = [] :=
  C3_filtration_program_never_set c3FailingInput "POOL1" "ADDR1" "RELAY1"
    c3Out (by rfl) c3Module (by decide)

/-! ## Status fetcher merge (`api.py`, `async_get_data`)

The merge step is:
`if self._pool_metadata: data.update(self._pool_metadata)` followed by
`if self._ipx_module_metadata: data["ipx_module"] = self._ipx_module_metadata`.
-/

/-- The merge step of `async_get_data`: update the JSON status dict with
the scraped pool metadata when truthy (`dict.update` — the argument's
values overwrite), then store the scraped IPX metadata under the
`ipx_module` key when truthy.  The two metadata fields are `None` before
a refresh and dicts afterwards. -/
def mergeStatusData (data : JDict) (pool_metadata : Option JDict)
    (ipx_module_metadata : Option JDict) : JDict :=
  let d1 :=
    match pool_metadata with
    | some m => if m.isEmpty then data else dictUpdate data m
    | none => data
  match ipx_module_metadata with
  | some ipx => if ipx.isEmpty then d1 else jinsert d1 "ipx_module" (.obj ipx)
  | none => d1

theorem jlookup_cons (k0 : String) (v0 : JVal) (d : JDict) (k : String) :
    jlookup ((k0, v0) :: d) k = if k0 = k then some v0 else jlookup d k := by
  unfold jlookup
  rw [List.find?_cons]
  by_cases h : k0 = k
  · simp [h]
  · simp [h]

theorem jlookup_jinsert_self (d : JDict) (k : String) (v : JVal) :
    jlookup (jinsert d k v) k = some v := by
  induction d with
  | nil => rw [jinsert, jlookup_cons, if_pos rfl]
  | cons hd tl ih =>
    obtain ⟨k0, v0⟩ := hd
    rw [jinsert]
    by_cases h : k0 = k
    · rw [if_pos h, jlookup_cons, if_pos rfl]
    · rw [if_neg h, jlookup_cons, if_neg h, ih]

theorem jlookup_jinsert_ne (d : JDict) {k k' : String} (v : JVal)
    (h : k' ≠ k) : jlookup (jinsert d k v) k' = jlookup d k' := by
  induction d with
  | nil =>
    rw [jinsert, jlookup_cons, if_neg (fun hh => h hh.symm)]
  | cons hd tl ih =>
    obtain ⟨k0, v0⟩ := hd
    rw [jinsert]
    by_cases h0 : k0 = k
    · subst h0
      rw [if_pos rfl, jlookup_cons, jlookup_cons,
        if_neg (fun hh => h hh.symm), if_neg (fun hh => h hh.symm)]
    · rw [if_neg h0, jlookup_cons, jlookup_cons, ih]

theorem jlookup_eq_none {m : JDict} {k : String}
    (h : k ∉ m.map Prod.fst) : jlookup m k = none := by
  induction m with
  | nil => rfl
  | cons hd tl ih =>
    obtain ⟨k0, v0⟩ := hd
    rw [List.map_cons, List.mem_cons] at h
    push_neg at h
    rw [jlookup_cons, if_neg (fun hh => h.1 hh.symm)]
    exact ih h.2

/-- `dict.update` lookup: a key of the update argument carries the
argument's value; other keys keep the receiver's. -/
theorem jlookup_dictUpdate (d m : JDict) (k : String)
    (hm : (m.map Prod.fst).Nodup) :
    jlookup (dictUpdate d m) k =
      match jlookup m k with
      | some v => some v
      | none => jlookup d k := by
  induction m generalizing d with
  | nil => rfl
  | cons hd m' ih =>
    obtain ⟨k0, v0⟩ := hd
    rw [List.map_cons, List.nodup_cons] at hm
    obtain ⟨hk0, hm'⟩ := hm
    rw [dictUpdate, List.foldl_cons]
    have hfold : m'.foldl (fun acc kv => jinsert acc kv.1 kv.2)
        (jinsert d k0 v0) = dictUpdate (jinsert d k0 v0) m' := rfl
    rw [hfold, ih _ hm', jlookup_cons]
    by_cases h : k0 = k
    · subst h
      rw [if_pos rfl, jlookup_eq_none hk0, jlookup_jinsert_self]
    · rw [if_neg h]
      cases jlookup m' k with
      | some v => rfl
      | none => rw [jlookup_jinsert_ne _ _ (fun hh => h hh.symm)]

/-- C2 counterexample: with JSON status `temperature = 25` and scraped
pool metadata `temperature = 99`, the merged value is `99` — the scraped
value, not the JSON one — refuting that JSON status fields take
precedence (`data.update(self._pool_metadata)` overwrites). -/
theorem C2_counterexample_scraped_overwrites :
    jlookup (mergeStatusData [("temperature", .num 25)]
        (some [("temperature", .num 99)]) none) "temperature" =
        some (.num 99) ∧
      (JVal.num 99) ≠ .num 25 := by
  constructor
  · rfl
  · decide

/-- C2 amended: in the merge of `async_get_data`, the scraped pool
metadata takes precedence — every key present in the (truthy,
duplicate-free) scraped metadata carries its scraped value in the merged
result, and JSON status fields survive only on keys the scraped metadata
does not contain; the scraped IPX metadata is added under the separate
`ipx_module` key. -/
theorem C2_merge_scraped_precedence
    (data m ipx : JDict) (k : String)
    (hm : (m.map Prod.fst).Nodup) (hme : m ≠ []) (hie : ipx ≠ []) :
    (∀ v, jlookup m k = some v → k ≠ "ipx_module" →
        jlookup (mergeStatusData data (some m) (some ipx)) k = some v) ∧
      (jlookup m k = none → k ≠ "ipx_module" →
        jlookup (mergeStatusData data (some m) (some ipx)) k =
          jlookup data k) ∧
      jlookup (mergeStatusData data (some m) (some ipx)) "ipx_module" =
        some (.obj ipx) := by
  have hmem : m.isEmpty = false := by
    cases m
    · exact absurd rfl hme
    · rfl
  have hiem : ipx.isEmpty = false := by
    cases ipx
    · exact absurd rfl hie
    · rfl
  unfold mergeStatusData
  simp only [hmem, hiem, Bool.false_eq_true, if_false]
  refine ⟨?_, ?_, ?_⟩
  · intro v hv hk
    rw [jlookup_jinsert_ne _ _ hk, jlookup_dictUpdate _ _ _ hm, hv]
  · intro hv hk
    rw [jlookup_jinsert_ne _ _ hk, jlookup_dictUpdate _ _ _ hm, hv]
  · rw [jlookup_jinsert_self]

/-- Witness for the amended C2: JSON `temperature=25, ph=7`, scraped
metadata `temperature=99`, IPX metadata `saltValue=3`: merged
`temperature` is `99`, merged `ph` stays `7`, and the IPX dict sits under
`ipx_module`. -/
theorem C2_merge_scraped_precedence_witness :
    jlookup (mergeStatusData [("temperature", .num 25), ("ph", .num 7)]
        (some [("temperature", .num 99)]) (some [("saltValue", .num 3)]))
        "temperature" = some (.num 99) ∧
      jlookup (mergeStatusData [("temperature", .num 25), ("ph", .num 7)]
        (some [("temperature", .num 99)]) (some [("saltValue", .num 3)]))
        "ph" = jlookup [("temperature", .num 25), ("ph", .num 7)] "ph" ∧
      jlookup (mergeStatusData [("temperature", .num 25), ("ph", .num 7)]
        (some [("temperature", .num 99)]) (some [("saltValue", .num 3)]))
        "ipx_module" = some (.obj [("saltValue", .num 3)]) := by
  have h1 := C2_merge_scraped_precedence
    [("temperature", .num 25), ("ph", .num 7)] [("temperature", .num 99)]
    [("saltValue", .num 3)] "temperature" (by decide) (by decide) (by decide)
  have h2 := C2_merge_scraped_precedence
    [("temperature", .num 25), ("ph", .num 7)] [("temperature", .num 99)]
    [("saltValue", .num 3)] "ph" (by decide) (by decide) (by decide)
  exact ⟨h1.1 (.num 99) (by decide) (by decide),
    h2.2.1 (by decide) (by decide), h2.2.2⟩

/-! ## Authenticated session client (`api.py`, `_request`) -/

/-- The observable shape of one HTTP response as `_request` inspects it:
the status code, whether the `Location` header contains `login`, whether
the final URL contains `login`, and the body. -/
structure HttpResponse where
  status : Nat
  locationHasLogin : Bool
  urlHasLogin : Bool
  body : String
  deriving Repr, DecidableEq

/-- The client's error kinds (`api.py`). -/
inductive ApiError where
  | comm
  | auth
  deriving Repr, DecidableEq

/-- The invalid-session test of `_request`: status 401 or 403, or an
unfollowed 302 whose `Location` contains `login`, or a final URL
containing `login`. -/
def sessionInvalid (allowRedirects : Bool) (r : HttpResponse) : Bool :=
  (r.status == 401 || r.status == 403) ||
    (!allowRedirects && r.status == 302 && r.locationHasLogin) ||
    r.urlHasLogin

/-- The status check after the retry logic: any status other than 200 —
except an unfollowed 302, which the login flow handles itself — raises
a CommunicationError; otherwise the body is returned. -/
def handleStatus (allowRedirects : Bool) (r : HttpResponse) :
    Except ApiError String :=
  if r.status ≠ 200 ∧ ¬(¬allowRedirects ∧ r.status = 302) then .error .comm
  else .ok r.body

/-- `_request`, driven by a response stream (attempt `i` receives
`responses i`) and the outcome of `async_login`.  `fuel` bounds the
retry recursion, `none` standing for a non-terminating recursion; the
returned `Nat` counts the `async_login` calls made. -/
def requestFuel (login : Except ApiError Unit)
    (responses : Nat → HttpResponse) :
    Nat → Nat → Bool → Bool → Option (Nat × Except ApiError String)
  | 0, _, _, _ => none
  | fuel + 1, i, allowRedirects, retryAuth =>
    let r := responses i
    if sessionInvalid allowRedirects r && retryAuth then
      match login with
      | .error e => some (1, .error e)
      | .ok _ =>
        match requestFuel login responses fuel (i + 1) allowRedirects false with
        | none => none
        | some (l, res) => some (l + 1, res)
    else some (0, handleStatus allowRedirects r)

/-- `_request` under the two-attempt bound its own structure guarantees
(the retry is issued with `retry_auth=False`, so depth two suffices). -/
def request (login : Except ApiError Unit) (responses : Nat → HttpResponse)
    (allowRedirects retryAuth : Bool) :
    Option (Nat × Except ApiError String) :=
  requestFuel login responses 2 0 allowRedirects retryAuth

/-- C6: with retry allowed and a successful re-login, an invalid-session
first response (401/403 or a login redirect) makes `_request` call
`async_login` exactly once and retry the original request exactly once
with retry disabled — the outcome is the plain status handling of the
second response, with no further recursion (the two-attempt fuel never
runs out); in particular a persistently-401 stream yields exactly one
re-login attempt and a CommunicationError. -/
theorem C6_request_single_retry
    (responses : Nat → HttpResponse) (allowRedirects : Bool)
    (hinv : sessionInvalid allowRedirects (responses 0) = true) :
    request (.ok ()) responses allowRedirects true =
        some (1, handleStatus allowRedirects (responses 1)) ∧
      ((∀ i, (responses i).status = 401) →
        request (.ok ()) responses allowRedirects true =
          some (1, .error .comm)) := by
  have hone : ∀ j, requestFuel (Except.ok ()) responses 1 j allowRedirects
      false = some (0, handleStatus allowRedirects (responses j)) := by
    intro j
    rw [show (1 : Nat) = 0 + 1 from rfl, requestFuel]
    simp
  have hstep : request (.ok ()) responses allowRedirects true =
      some (1, handleStatus allowRedirects (responses 1)) := by
    unfold request
    rw [show (2 : Nat) = 1 + 1 from rfl, requestFuel]
    rw [hinv]
    simp only [Bool.true_and, if_true]
    rw [hone (0 + 1)]
  refine ⟨hstep, fun h401 => ?_⟩
  rw [hstep]
  unfold handleStatus
  rw [if_pos]
  constructor
  · rw [h401 1]
    decide
  · rw [h401 1]
    rintro ⟨-, h⟩
    cases h

/-- Witness for C6: a stream that always answers 401 gives exactly one
re-login and a CommunicationError. -/
theorem C6_request_single_retry_witness :
    request (.ok ()) (fun _ => ⟨401, false, false, "denied"⟩) true true =
      some (1, .error .comm) :=
  (C6_request_single_retry (fun _ => ⟨401, false, false, "denied"⟩) true
    (by decide)).2 (fun _ => rfl)

/-! ## Command writer: program-list construction
(`api.py`, `async_set_filtration_mode` steps 1-4, and
`PROGRAM_TYPE_FILTRATION` from `const.py`) -/

/-- `PROGRAM_TYPE_FILTRATION = 4` (const.py). -/
def PROGRAM_TYPE_FILTRATION : Int := 4

/-- Errors on the write path. -/
inductive WriteErr where
  | validation
  | py (e : PyErr)
  deriving Repr, DecidableEq

/-- Steps 1-3 on the target program: deep-copy (value copy here), set the
mode inside `programCharacteristics` — an `IndygoPoolApiClientError` when
the key is absent, a `TypeError` when its value is not a dict — then set
the `dataChanged` flag. -/
def buildProgramCopy (full_program_data : JDict) (mode : Int) :
    Except WriteErr JDict :=
  match jlookup full_program_data "programCharacteristics" with
  | none => .error .validation
  | some (.obj cs) =>
    .ok (jinsert (jinsert full_program_data "programCharacteristics"
          (.obj (jinsert cs "mode" (.num (mode : Rat))))) "dataChanged"
        (.bool true))
  | some _ => .error (.py .typeError)

/-- `prog_copy["dataChanged"] = True` on a program dict. -/
def flagChanged (fields : JDict) : JDict :=
  jinsert fields "dataChanged" (.bool true)

/-- The loop body for a cached program that does not match the target id:
deep-copy, set `dataChanged`, and for a non-filtration program null its
mode when one is present. -/
def updateOtherProgram (prog : JVal) : Except WriteErr JVal :=
  match prog with
  | .obj fields =>
    match jlookup (flagChanged fields) "programCharacteristics" with
    | none => .ok (.obj (flagChanged fields))
    | some (.obj cs) =>
      if jlookup cs "programType" ≠ some (.num (PROGRAM_TYPE_FILTRATION : Rat))
      then
        if (jlookup cs "mode").isSome then
          .ok (.obj (jinsert (flagChanged fields) "programCharacteristics"
            (.obj (jinsert cs "mode" .null))))
        else .ok (.obj (flagChanged fields))
      else .ok (.obj (flagChanged fields))
    | some _ => .error (.py .attributeError)
  | _ => .error (.py .typeError)

/-- `prog.get("id")` inside the rebuild loop. -/
def progIdExcept (prog : JVal) : Except WriteErr (Option JVal) :=
  match prog with
  | .obj fields => .ok (jlookup fields "id")
  | _ => .error (.py .attributeError)

/-- Structurally recursive effectful map, matching the `for` loop's
append order. -/
def mapExcept {ε α β : Type} (f : α → Except ε β) : List α → Except ε (List β)
  | [] => .ok []
  | x :: xs => do
    let y ← f x
    let ys ← mapExcept f xs
    pure (y :: ys)

/-- The `id` test of the final `any(...)` guard. -/
def hasId (program_id : Option JVal) (p : JVal) : Bool :=
  match p with
  | .obj fields => decide (jlookup fields "id" = program_id)
  | _ => false

/-- Steps 1-4 of `async_set_filtration_mode`: the updated target program
and the complete rebuilt program list (target replacing same-id entries,
every other program flagged and mode-sanitised, target appended when no
cached program shares its id). -/
def buildUpdatedPrograms (module_programs : List JVal)
    (full_program_data : JDict) (mode : Int) :
    Except WriteErr (JDict × List JVal) := do
  let program_copy ← buildProgramCopy full_program_data mode
  let program_id := jlookup program_copy "id"
  let updated_programs ← mapExcept (fun prog => do
      let pid ← progIdExcept prog
      if pid = program_id then pure (JVal.obj program_copy)
      else updateOtherProgram prog) module_programs
  let final :=
    if updated_programs.any (hasId program_id) then updated_programs
    else updated_programs ++ [.obj program_copy]
  pure (program_copy, final)

/-- The `programCharacteristics` sub-field of a program value. -/
def progCharacteristic (p : JVal) (k : String) : Option JVal :=
  match p with
  | .obj fields =>
    match jlookup fields "programCharacteristics" with
    | some (.obj cs) => jlookup cs k
    | _ => none
  | _ => none

/-- A top-level field of a program value. -/
def progField (p : JVal) (k : String) : Option JVal :=
  match p with
  | .obj fields => jlookup fields k
  | _ => none

theorem buildProgramCopy_shape {fpd : JDict} {mode : Int} {pc : JDict}
    (h : buildProgramCopy fpd mode = .ok pc) :
    jlookup pc "dataChanged" = some (.bool true) ∧
      (∃ cs', jlookup pc "programCharacteristics" = some (.obj cs') ∧
        jlookup cs' "mode" = some (.num (mode : Rat))) ∧
      jlookup pc "id" = jlookup fpd "id" := by
  unfold buildProgramCopy at h
  cases hl : jlookup fpd "programCharacteristics" with
  | none => rw [hl] at h; simp at h
  | some v =>
    rw [hl] at h
    cases v with
    | obj cs =>
      simp only [Except.ok.injEq] at h
      subst h
      refine ⟨jlookup_jinsert_self _ _ _,
        ⟨jinsert cs "mode" (.num (mode : Rat)), ?_, jlookup_jinsert_self _ _ _⟩,
        ?_⟩
      · rw [jlookup_jinsert_ne _ _ (by decide), jlookup_jinsert_self]
      · rw [jlookup_jinsert_ne _ _ (by decide),
          jlookup_jinsert_ne _ _ (by decide)]
    | null => simp at h
    | bool b => simp at h
    | num q => simp at h
    | str s => simp at h
    | arr xs => simp at h

/-- The unfolding of `updateOtherProgram` on a dict. -/
theorem updateOtherProgram_obj_eq (fields : JDict) :
    updateOtherProgram (.obj fields) =
      match jlookup (flagChanged fields) "programCharacteristics" with
      | none => .ok (.obj (flagChanged fields))
      | some (.obj cs) =>
        if jlookup cs "programType" ≠ some (.num (PROGRAM_TYPE_FILTRATION : Rat))
        then
          if (jlookup cs "mode").isSome then
            .ok (.obj (jinsert (flagChanged fields) "programCharacteristics"
              (.obj (jinsert cs "mode" .null))))
          else .ok (.obj (flagChanged fields))
        else .ok (.obj (flagChanged fields))
      | some _ => .error (.py .attributeError) := rfl

theorem updateOtherProgram_shape {prog p : JVal}
    (h : updateOtherProgram prog = .ok p) :
    progField p "dataChanged" = some (.bool true) ∧
      progField p "id" = progField prog "id" ∧
      (progCharacteristic p "programType" ≠
          some (.num (PROGRAM_TYPE_FILTRATION : Rat)) →
        progCharacteristic p "mode" = none ∨
          progCharacteristic p "mode" = some .null) := by
  cases prog with
  | obj fields =>
    rw [updateOtherProgram_obj_eq] at h
    cases hlk : jlookup (flagChanged fields) "programCharacteristics" with
    | none =>
      rw [hlk] at h
      simp only [Except.ok.injEq] at h
      subst h
      refine ⟨?_, ?_, ?_⟩
      · simpa [progField, flagChanged] using
          jlookup_jinsert_self fields "dataChanged" (.bool true)
      · simp only [progField, flagChanged]
        rw [jlookup_jinsert_ne _ _ (by decide)]
      · intro _
        left
        simp [progCharacteristic, hlk]
    | some v =>
      rw [hlk] at h
      cases v with
      | obj cs =>
        dsimp only at h
        by_cases hty : jlookup cs "programType" ≠
            some (.num (PROGRAM_TYPE_FILTRATION : Rat))
        · by_cases hmode : (jlookup cs "mode").isSome = true
          · rw [if_pos hty, if_pos hmode] at h
            simp only [Except.ok.injEq] at h
            subst h
            refine ⟨?_, ?_, ?_⟩
            · simp only [progField]
              rw [jlookup_jinsert_ne _ _ (by decide)]
              exact jlookup_jinsert_self fields "dataChanged" _
            · simp only [progField, flagChanged]
              rw [jlookup_jinsert_ne _ _ (by decide),
                jlookup_jinsert_ne _ _ (by decide)]
            · intro _
              right
              simp [progCharacteristic, jlookup_jinsert_self]
          · rw [if_pos hty, if_neg hmode] at h
            simp only [Except.ok.injEq] at h
            subst h
            refine ⟨?_, ?_, ?_⟩
            · simpa [progField, flagChanged] using
                jlookup_jinsert_self fields "dataChanged" (.bool true)
            · simp only [progField, flagChanged]
              rw [jlookup_jinsert_ne _ _ (by decide)]
            · intro _
              left
              simp only [progCharacteristic, hlk]
              exact Option.not_isSome_iff_eq_none.mp hmode
        · rw [if_neg hty] at h
          simp only [Except.ok.injEq] at h
          subst h
          refine ⟨?_, ?_, ?_⟩
          · simpa [progField, flagChanged] using
              jlookup_jinsert_self fields "dataChanged" (.bool true)
          · simp only [progField, flagChanged]
            rw [jlookup_jinsert_ne _ _ (by decide)]
          · intro hne
            have hty4 : progCharacteristic (JVal.obj (flagChanged fields))
                "programType" = some (.num (PROGRAM_TYPE_FILTRATION : Rat)) := by
              simp only [progCharacteristic, hlk]
              exact not_not.mp hty
            exact absurd hty4 hne
      | null => simp at h
      | bool b => simp at h
      | num q => simp at h
      | str s => simp at h
      | arr xs => simp at h
  | null => simp [updateOtherProgram] at h
  | bool b => simp [updateOtherProgram] at h
  | num q => simp [updateOtherProgram] at h
  | str s => simp [updateOtherProgram] at h
  | arr xs => simp [updateOtherProgram] at h

/-- `updateOtherProgram` only succeeds with an object result. -/
theorem updateOtherProgram_obj {prog p : JVal}
    (h : updateOtherProgram prog = .ok p) : ∃ pf, p = .obj pf := by
  cases prog with
  | obj fields =>
    rw [updateOtherProgram_obj_eq] at h
    cases hlk : jlookup (flagChanged fields) "programCharacteristics" with
    | none =>
      rw [hlk] at h
      simp only [Except.ok.injEq] at h
      exact ⟨_, h.symm⟩
    | some v =>
      rw [hlk] at h
      cases v with
      | obj cs =>
        dsimp only at h
        by_cases hty : jlookup cs "programType" ≠
            some (.num (PROGRAM_TYPE_FILTRATION : Rat))
        · by_cases hmode : (jlookup cs "mode").isSome = true
          · rw [if_pos hty, if_pos hmode] at h
            simp only [Except.ok.injEq] at h
            exact ⟨_, h.symm⟩
          · rw [if_pos hty, if_neg hmode] at h
            simp only [Except.ok.injEq] at h
            exact ⟨_, h.symm⟩
        · rw [if_neg hty] at h
          simp only [Except.ok.injEq] at h
          exact ⟨_, h.symm⟩
      | null => simp at h
      | bool b => simp at h
      | num q => simp at h
      | str s => simp at h
      | arr xs => simp at h
  | null => simp [updateOtherProgram] at h
  | bool b => simp [updateOtherProgram] at h
  | num q => simp [updateOtherProgram] at h
  | str s => simp [updateOtherProgram] at h
  | arr xs => simp [updateOtherProgram] at h

theorem mapExcept_ok_mem {ε α β : Type} {f : α → Except ε β} {l : List α}
    {out : List β} (h : mapExcept f l = .ok out) :
    ∀ b ∈ out, ∃ a ∈ l, f a = .ok b := by
  induction l generalizing out with
  | nil =>
    rw [mapExcept] at h
    injection h with h
    subst h
    intro b hb
    simp at hb
  | cons x xs ih =>
    rw [mapExcept] at h
    obtain ⟨y, hy, h⟩ := exceptBind_ok_inv h
    obtain ⟨ys, hys, h⟩ := exceptBind_ok_inv h
    rw [exceptPure_eq] at h
    injection h with h
    subst h
    intro b hb
    rcases List.mem_cons.mp hb with rfl | hb
    · exact ⟨x, by simp, hy⟩
    · obtain ⟨a, ha, hfa⟩ := ih hys b hb
      exact ⟨a, by simp [ha], hfa⟩

/-- Each element of the rebuilt list is the target copy or a sanitised
copy of a cached program with a different id. -/
theorem buildLoop_elem (program_copy : JDict) (program_id : Option JVal)
    (prog p : JVal)
    (h : (do
        let pid ← progIdExcept prog
        if pid = program_id then pure (JVal.obj program_copy)
        else updateOtherProgram prog) = Except.ok p) :
    p = .obj program_copy ∨
      (progField p "dataChanged" = some (.bool true) ∧
        (progCharacteristic p "programType" ≠
            some (.num (PROGRAM_TYPE_FILTRATION : Rat)) →
          progCharacteristic p "mode" = none ∨
            progCharacteristic p "mode" = some .null) ∧
        hasId program_id p = false) := by
  obtain ⟨pid, hpid, h⟩ := exceptBind_ok_inv h
  by_cases hc : pid = program_id
  · rw [if_pos hc, exceptPure_eq] at h
    injection h with h
    exact Or.inl h.symm
  · rw [if_neg hc] at h
    obtain ⟨hdc, hid, hmode⟩ := updateOtherProgram_shape h
    obtain ⟨pf, rfl⟩ := updateOtherProgram_obj h
    refine Or.inr ⟨hdc, hmode, ?_⟩
    have hpid' : pid = progField prog "id" := by
      unfold progIdExcept at hpid
      split at hpid
      · next flds => injection hpid with hpid; simp [progField, ← hpid]
      · simp at hpid
    have hiid : jlookup pf "id" = pid := by
      have h0 : progField (JVal.obj pf) "id" = jlookup pf "id" := rfl
      rw [← h0, hid, ← hpid']
    simp [hasId, hiid, hc]

/-- C8 counterexample: when the target program itself is of a
non-filtration type (programType 3) and carries a mode, the submitted
list contains it with the requested mode 2 — not null — so the claim's
clause that every non-filtration program with a mode field has it forced
to null fails for the target program. -/
theorem C8_counterexample_target_mode_not_nulled :
    buildUpdatedPrograms
        [.obj [("id", .str "p1"), ("programCharacteristics",
          .obj [("programType", .num 3), ("mode", .num 1)])]]
        [("id", .str "p1"), ("programCharacteristics",
          .obj [("programType", .num 3), ("mode", .num 1)])] 2 =
      .ok ([("id", .str "p1"), ("programCharacteristics",
          .obj [("programType", .num 3), ("mode", .num 2)]),
          ("dataChanged", .bool true)],
        [.obj [("id", .str "p1"), ("programCharacteristics",
          .obj [("programType", .num 3), ("mode", .num 2)]),
          ("dataChanged", .bool true)]]) ∧
      (JVal.num 3) ≠ .num (PROGRAM_TYPE_FILTRATION : Rat) ∧
      (JVal.num 2) ≠ .null := by
  refine ⟨by rfl, by decide, by decide⟩

/-- C8 amended: the submitted program-list payload satisfies: every
program in the list has dataChanged true; every program other than the
target whose programType is not the filtration constant 4 and which has
a mode field has that mode forced to null; and the target program (the
deep copy, matched by id or appended) appears in the list with its
programCharacteristics mode equal to the requested mode.  (Deep copying
is value copying in this embedding, so caller-owned data is never
mutated by construction.) -/
theorem C8_submitted_program_list
    (module_programs : List JVal) (fpd : JDict) (mode : Int)
    (pc : JDict) (ups : List JVal)
    (hok : buildUpdatedPrograms module_programs fpd mode = .ok (pc, ups)) :
    JVal.obj pc ∈ ups ∧
      progCharacteristic (.obj pc) "mode" = some (.num (mode : Rat)) ∧
      (∀ p ∈ ups, progField p "dataChanged" = some (.bool true)) ∧
      (∀ p ∈ ups, p = .obj pc ∨
        (progCharacteristic p "programType" ≠
            some (.num (PROGRAM_TYPE_FILTRATION : Rat)) →
          progCharacteristic p "mode" = none ∨
            progCharacteristic p "mode" = some .null)) := by
  unfold buildUpdatedPrograms at hok
  obtain ⟨pc', hpc, hok⟩ := exceptBind_ok_inv hok
  obtain ⟨mapped, hmap, hok⟩ := exceptBind_ok_inv hok
  rw [exceptPure_eq] at hok
  injection hok with hok
  injection hok with h1 h2
  rw [h1] at hpc hmap h2
  obtain ⟨hdc, ⟨cs', hcs, hmode⟩, hidpc⟩ := buildProgramCopy_shape hpc
  have helem : ∀ p ∈ mapped, p = .obj pc ∨
      (progField p "dataChanged" = some (.bool true) ∧
        (progCharacteristic p "programType" ≠
            some (.num (PROGRAM_TYPE_FILTRATION : Rat)) →
          progCharacteristic p "mode" = none ∨
            progCharacteristic p "mode" = some .null) ∧
        hasId (jlookup pc "id") p = false) := by
    intro p hp
    obtain ⟨prog, -, hfp⟩ := mapExcept_ok_mem hmap p hp
    exact buildLoop_elem pc (jlookup pc "id") prog p hfp
  have hpcmem : JVal.obj pc ∈ ups := by
    subst h2
    by_cases hany : mapped.any (hasId (jlookup pc "id"))
    · rw [if_pos hany]
      obtain ⟨p, hp, hpid⟩ := List.any_eq_true.mp hany
      rcases helem p hp with rfl | ⟨-, -, hfalse⟩
      · exact hp
      · rw [hpid] at hfalse
        cases hfalse
    · rw [if_neg hany]
      simp
  have hpcd : progField (.obj pc) "dataChanged" = some (.bool true) := by
    simpa [progField] using hdc
  have hpcm : progCharacteristic (.obj pc) "mode" =
      some (.num (mode : Rat)) := by
    simp [progCharacteristic, hcs, hmode]
  refine ⟨hpcmem, hpcm, ?_, ?_⟩
  · intro p hp
    subst h2
    have hp' : p ∈ mapped ∨ p = .obj pc := by
      by_cases hany : mapped.any (hasId (jlookup pc "id"))
      · rw [if_pos hany] at hp
        exact Or.inl hp
      · rw [if_neg hany] at hp
        rcases List.mem_append.mp hp with hp | hp
        · exact Or.inl hp
        · simp at hp
          exact Or.inr hp
    rcases hp' with hp' | rfl
    · rcases helem p hp' with rfl | ⟨hdc', -, -⟩
      · exact hpcd
      · exact hdc'
    · exact hpcd
  · intro p hp
    subst h2
    have hp' : p ∈ mapped ∨ p = .obj pc := by
      by_cases hany : mapped.any (hasId (jlookup pc "id"))
      · rw [if_pos hany] at hp
        exact Or.inl hp
      · rw [if_neg hany] at hp
        rcases List.mem_append.mp hp with hp | hp
        · exact Or.inl hp
        · simp at hp
          exact Or.inr hp
    rcases hp' with hp' | rfl
    · rcases helem p hp' with rfl | ⟨-, hmode', -⟩
      · exact Or.inl rfl
      · exact Or.inr hmode'
    · exact Or.inl rfl

/-- The C8 witness call: the cached module programs (a filtration program
and a lighting program) and the target filtration program. -/
def c8progs : List JVal :=
  [.obj [("id", .str "f1"), ("programCharacteristics",
      .obj [("programType", .num 4), ("mode", .num 0)])],
   .obj [("id", .str "l1"), ("programCharacteristics",
      .obj [("programType", .num 1), ("mode", .num 2)])]]

/-- The target program of the C8 witness call. -/
def c8fpd : JDict :=
  [("id", .str "f1"), ("programCharacteristics",
    .obj [("programType", .num 4), ("mode", .num 0)])]

/-- The result of the C8 witness call (mode set to 2). -/
def c8result : JDict × List JVal :=
  match buildUpdatedPrograms c8progs c8fpd 2 with
  | .ok r => r
  | .error _ => ([], [])

/-- Witness for the amended C8: on the concrete call the target copy is
in the submitted list with mode 2, and every entry has dataChanged
true. -/
theorem C8_submitted_program_list_witness :
    JVal.obj c8result.1 ∈ c8result.2 ∧
      progCharacteristic (.obj c8result.1) "mode" = some (.num 2) ∧
      c8result.2.all
        (fun p => progField p "dataChanged" = some (.bool true)) = true := by
  have h := C8_submitted_program_list c8progs c8fpd 2 c8result.1 c8result.2
    (by rfl)
  refine ⟨h.1, h.2.1, ?_⟩
  rw [List.all_eq_true]
  intro p hp
  exact decide_eq_true (h.2.2.1 p hp)

/-! ## Command writer: remote-sync choreography
(`api.py`, `async_set_filtration_mode` steps 5-6,
`async_apply_module_changes`, `_get_module_serial`,
`_handle_off_mode_control`, `async_send_remote_control`,
`async_synchronize_lorawan`) -/

/-- One outgoing API call of the write choreography, carrying the payload
fields the claims speak about. -/
inductive ApiCall where
  | moduleUpdate (moduleId name : String)
  | programUpdate (moduleId : String) (programs : List JVal)
  | remoteModuleName (moduleId relayId name : String)
  | remoteConfigAndPrograms (moduleId relayId : String)
  | reportModuleDataSent (moduleId : String)
  | reportProgramsDataSent (moduleId : String) (programs : List JVal)
  | remoteControl (serial : String) (mode : String) (action : Int)
  | lorawanSync (moduleId : String) (sendProgram sendCommand : Bool)
  deriving Repr, DecidableEq

/-- Issue one call against the network oracle (`oracle c = false` means
the request raises an `IndygoPoolApiClientError`): the trace records the
call, failure gives a CommunicationError. -/
def call (oracle : ApiCall → Bool) (c : ApiCall) :
    List ApiCall × Except ApiError Unit :=
  ([c], if oracle c then .ok () else .error .comm)

/-- Sequencing with traces: the second step runs only when the first
succeeded; calls already made stay in the trace. -/
def andThen (a : List ApiCall × Except ApiError Unit)
    (f : Unit → List ApiCall × Except ApiError Unit) :
    List ApiCall × Except ApiError Unit :=
  match a with
  | (t, .error e) => (t, .error e)
  | (t, .ok _) =>
    let b := f ()
    (t ++ b.1, b.2)

/-- The client state the choreography reads: the cached module record's
serial, the matching scraped-metadata module entry (with its possibly
absent serial), the discovered pool address, and the cached LoRaWAN-V2
type flag. -/
structure ClientState where
  dataSerial : Option String
  metaSerial : Option (Option String)
  poolAddress : Option String
  typeIsLoraWanV2 : Bool
  deriving Repr, DecidableEq

/-- `_get_module_serial`: the cached record's serial when truthy, else
the matching metadata module's serial (returned even when `None`), else
the pool address. -/
def get_module_serial (st : ClientState) : Option String :=
  match st.dataSerial with
  | some s =>
    if s ≠ "" then some s
    else
      match st.metaSerial with
      | some sn => sn
      | none => st.poolAddress
  | none =>
    match st.metaSerial with
    | some sn => sn
    | none => st.poolAddress

/-- `async_send_remote_control`: `serial = module_serial or
self._pool_address`; a falsy serial skips the call with a warning,
otherwise one POST to the remote-control endpoint. -/
def async_send_remote_control (oracle : ApiCall → Bool) (st : ClientState)
    (mode : String) (module_serial : Option String) (action : Int) :
    List ApiCall × Except ApiError Unit :=
  let serial : Option String :=
    match module_serial with
    | some s => if s = "" then st.poolAddress else some s
    | none => st.poolAddress
  match serial with
  | none => ([], .ok ())
  | some s =>
    if s = "" then ([], .ok ())
    else call oracle (.remoteControl s mode action)

/-- `_handle_off_mode_control`: read the mode out of the program's
characteristics and send the immediate stop command only when it is 0.
(The only caller passes the freshly built program copy, whose
characteristics are a dict.) -/
def _handle_off_mode_control (oracle : ApiCall → Bool) (st : ClientState)
    (full_program_data : JDict) : List ApiCall × Except ApiError Unit :=
  let mode_id := progCharacteristic (.obj full_program_data) "mode"
  if mode_id = some (.num 0) then
    async_send_remote_control oracle st "off" (get_module_serial st) 1
  else ([], .ok ())

/-- `async_synchronize_lorawan`: one POST whose failure is caught and
logged inside the function — it never raises. -/
def async_synchronize_lorawan (_oracle : ApiCall → Bool) (module_id : String)
    (send_program send_command : Bool) : List ApiCall × Except ApiError Unit :=
  ([ApiCall.lorawanSync module_id send_program send_command], .ok ())

/-- The try-protected body of `async_apply_module_changes`: name update
when a name is given, configuration-and-programs push, module
data-sent report, programs data-sent report (the programs list, or the
single program as fallback), off-mode remote control, LoRaWAN sync for
V2 modules. -/
def applyBody (oracle : ApiCall → Bool) (st : ClientState)
    (module_id relay_id : String) (programs : Option (List JVal))
    (full_program_data : Option JDict) (module_name : Option String) :
    List ApiCall × Except ApiError Unit :=
  andThen
    (match module_name with
      | some nm => if nm ≠ "" then call oracle (.remoteModuleName module_id relay_id nm)
          else ([], .ok ())
      | none => ([], .ok ()))
    (fun _ => andThen (call oracle (.remoteConfigAndPrograms module_id relay_id))
    (fun _ => andThen (call oracle (.reportModuleDataSent module_id))
    (fun _ => andThen
      (match programs with
        | some ps =>
          if ps ≠ [] then call oracle (.reportProgramsDataSent module_id ps)
          else
            match full_program_data with
            | some fpd => call oracle (.reportProgramsDataSent module_id [.obj fpd])
            | none => ([], .ok ())
        | none =>
          match full_program_data with
          | some fpd => call oracle (.reportProgramsDataSent module_id [.obj fpd])
          | none => ([], .ok ()))
    (fun _ => andThen
      (match full_program_data with
        | some fpd => _handle_off_mode_control oracle st fpd
        | none => ([], .ok ()))
    (fun _ =>
      if st.typeIsLoraWanV2 then async_synchronize_lorawan oracle module_id true true
      else ([], .ok ()))))))

/-- `async_apply_module_changes`: skip entirely without a relay id; any
`IndygoPoolApiClientError` out of the body is caught and logged — the
function itself always returns normally. -/
def async_apply_module_changes (oracle : ApiCall → Bool) (st : ClientState)
    (module_id : String) (relay_id : Option String)
    (programs : Option (List JVal)) (full_program_data : Option JDict)
    (module_name : Option String) : List ApiCall × Except ApiError Unit :=
  match relay_id with
  | none => ([], .ok ())
  | some rid =>
    if rid = "" then ([], .ok ())
    else
      let b := applyBody oracle st module_id rid programs full_program_data
        module_name
      (b.1, .ok ())

/-- Error kinds surfacing out of `async_set_filtration_mode`. -/
inductive SetModeErr where
  | validation
  | py (e : PyErr)
  | comm
  | auth
  deriving Repr, DecidableEq

/-- `async_set_filtration_mode`: build the full program list (steps 1-4,
`buildUpdatedPrograms`), submit the module-name update and the complete
program list (step 5, failures propagate), then trigger the remote
synchronization (step 6, failures swallowed inside
`async_apply_module_changes`). -/
def async_set_filtration_mode (oracle : ApiCall → Bool) (st : ClientState)
    (module_id : String) (module_programs : List JVal) (module_name : String)
    (relay_id : Option String) (full_program_data : JDict) (mode : Int) :
    List ApiCall × Except SetModeErr Unit :=
  match buildUpdatedPrograms module_programs full_program_data mode with
  | .error .validation => ([], .error .validation)
  | .error (.py e) => ([], .error (.py e))
  | .ok (program_copy, updated_programs) =>
    match call oracle (.moduleUpdate module_id module_name) with
    | (t1, .error _) => (t1, .error .comm)
    | (t1, .ok _) =>
      match call oracle (.programUpdate module_id updated_programs) with
      | (t2, .error _) => (t1 ++ t2, .error .comm)
      | (t2, .ok _) =>
        let b := async_apply_module_changes oracle st module_id relay_id
          (some updated_programs) (some program_copy) (some module_name)
        (t1 ++ t2 ++ b.1, .ok ())

theorem buildUpdatedPrograms_fst {module_programs : List JVal} {fpd : JDict}
    {mode : Int} {pc : JDict} {ups : List JVal}
    (h : buildUpdatedPrograms module_programs fpd mode = .ok (pc, ups)) :
    buildProgramCopy fpd mode = .ok pc := by
  unfold buildUpdatedPrograms at h
  obtain ⟨pc', hpc, h⟩ := exceptBind_ok_inv h
  obtain ⟨mapped, hmap, h⟩ := exceptBind_ok_inv h
  rw [exceptPure_eq] at h
  injection h with h
  injection h with h1 h2
  rw [h1] at hpc
  exact hpc

/-- C7: once the program list is built, a failure of the module-update
PUT or of the program-update PUT propagates as an exception out of
`async_set_filtration_mode`, while a failure in any
synchronization/reporting sub-step of `async_apply_module_changes`
(configuration-and-programs push, data-sent reports, off-mode remote
control, LoRaWAN sync) is caught and logged: with both primary PUTs
succeeding the call returns normally under EVERY oracle verdict on the
synchronization calls — in particular when the synchronization endpoint
fails after a successful program update. -/
theorem C7_primary_failures_propagate_sync_failures_swallowed
    (oracle : ApiCall → Bool) (st : ClientState)
    (module_id module_name : String) (relay_id : Option String)
    (module_programs : List JVal) (fpd : JDict) (mode : Int)
    (pc : JDict) (ups : List JVal)
    (hbuild : buildUpdatedPrograms module_programs fpd mode = .ok (pc, ups)) :
    (oracle (.moduleUpdate module_id module_name) = false →
      (async_set_filtration_mode oracle st module_id module_programs
        module_name relay_id fpd mode).2 = .error .comm) ∧
    (oracle (.moduleUpdate module_id module_name) = true →
      oracle (.programUpdate module_id ups) = false →
      (async_set_filtration_mode oracle st module_id module_programs
        module_name relay_id fpd mode).2 = .error .comm) ∧
    (oracle (.moduleUpdate module_id module_name) = true →
      oracle (.programUpdate module_id ups) = true →
      (async_set_filtration_mode oracle st module_id module_programs
        module_name relay_id fpd mode).2 = .ok ()) := by
  refine ⟨?_, ?_, ?_⟩
  · intro h1
    unfold async_set_filtration_mode
    rw [hbuild]
    simp [call, h1]
  · intro h1 h2
    unfold async_set_filtration_mode
    rw [hbuild]
    simp [call, h1, h2]
  · intro h1 h2
    unfold async_set_filtration_mode
    rw [hbuild]
    simp [call, h1, h2]

/-- Witness for C7: concretely, with the C8 fixture call and an oracle
failing exactly on the synchronization endpoint
(remote/module/configuration/and/programs) after both primary PUTs
succeeded, `async_set_filtration_mode` still returns normally. -/
theorem C7_primary_failures_propagate_sync_failures_swallowed_witness :
    (async_set_filtration_mode
      (fun c => match c with
        | .remoteConfigAndPrograms _ _ => false
        | _ => true)
      ⟨some "SER1", none, some "ADDR1", false⟩
      "mod1" c8progs "Pump" (some "ABC") c8fpd 2).2 = .ok () := by
  have h := C7_primary_failures_propagate_sync_failures_swallowed
    (fun c => match c with
      | .remoteConfigAndPrograms _ _ => false
      | _ => true)
    ⟨some "SER1", none, some "ADDR1", false⟩
    "mod1" "Pump" (some "ABC") c8progs c8fpd 2 c8result.1 c8result.2 (by rfl)
  exact h.2.2 (by rfl) (by rfl)

/-- The result of building the C8 fixture program list with mode 0 (for
the C9 witness). -/
def c9result : JDict × List JVal :=
  match buildUpdatedPrograms c8progs c8fpd 0 with
  | .ok r => r
  | .error _ => ([], [])

/-- C9: in a successful run of the write choreography (all calls
accepted, relay id present, module serial resolvable), the immediate
remote-control command with mode `off` and action 1 is sent exactly when
the requested filtration mode is 0; for any other requested mode (in
particular 1 and 2) no remote-control call appears in the trace at
all. -/
theorem C9_off_mode_remote_control
    (oracle : ApiCall → Bool) (st : ClientState)
    (module_id module_name rid : String)
    (module_programs : List JVal) (fpd : JDict) (mode : Int)
    (pc : JDict) (ups : List JVal)
    (hbuild : buildUpdatedPrograms module_programs fpd mode = .ok (pc, ups))
    (hallok : ∀ c, oracle c = true) (hrid : rid ≠ "")
    (s0 : String) (hs0 : get_module_serial st = some s0) (hs0ne : s0 ≠ "") :
    (mode = 0 →
      ApiCall.remoteControl s0 "off" 1 ∈
        (async_set_filtration_mode oracle st module_id module_programs
          module_name (some rid) fpd mode).1) ∧
    (mode ≠ 0 →
      ∀ s m a, ApiCall.remoteControl s m a ∉
        (async_set_filtration_mode oracle st module_id module_programs
          module_name (some rid) fpd mode).1) := by
  obtain ⟨-, ⟨cs', hcs, hm⟩, -⟩ :=
    buildProgramCopy_shape (buildUpdatedPrograms_fst hbuild)
  have hmode_pc : progCharacteristic (.obj pc) "mode" =
      some (.num (mode : Rat)) := by
    simp [progCharacteristic, hcs, hm]
  constructor
  · intro h0
    subst h0
    unfold async_set_filtration_mode
    rw [hbuild]
    unfold call async_apply_module_changes applyBody andThen
      _handle_off_mode_control async_send_remote_control
      async_synchronize_lorawan
    simp only [hallok, hmode_pc, hs0, if_true]
    by_cases hnm : module_name = "" <;>
      by_cases hups : ups = [] <;>
        by_cases hlw : st.typeIsLoraWanV2 <;>
          simp [call, hallok, hnm, hups, hlw, hs0ne, hrid, Int.cast_zero]
  · intro hne s m a
    have hcond : progCharacteristic (.obj pc) "mode" ≠ some (.num 0) := by
      rw [hmode_pc]
      intro hx
      injection hx with hx
      injection hx with hx
      exact hne (by exact_mod_cast hx)
    unfold async_set_filtration_mode
    rw [hbuild]
    unfold call async_apply_module_changes applyBody andThen
      _handle_off_mode_control async_send_remote_control
      async_synchronize_lorawan
    simp only [hallok, hcond, hs0, if_true]
    by_cases hnm : module_name = "" <;>
      by_cases hups : ups = [] <;>
        by_cases hlw : st.typeIsLoraWanV2 <;>
          simp [call, hallok, hnm, hups, hlw, hs0ne, hrid, hcond]

/-- Witness for C9: with all calls succeeding, requesting mode 0 on the
C8 fixture sends the immediate stop command (serial `SER1`); the same
call with mode 2 is covered by the theorem's other branch. -/
theorem C9_off_mode_remote_control_witness :
    ApiCall.remoteControl "SER1" "off" 1 ∈
      (async_set_filtration_mode (fun _ => true)
        ⟨some "SER1", none, some "ADDR1", false⟩
        "mod1" c8progs "Pump" (some "ABC") c8fpd 0).1 := by
  have h := C9_off_mode_remote_control (fun _ => true)
    ⟨some "SER1", none, some "ADDR1", false⟩
    "mod1" "Pump" "ABC" c8progs c8fpd 0 c9result.1 c9result.2 (by rfl)
    (fun _ => rfl) (by decide) "SER1" (by rfl) (by decide)
  exact h.1 rfl

/-! ## Refresh-cycle interface (`api.py` `async_get_data` /
`async_refresh_scraped_data` against the `IndygoParser` methods of
`parser.py`) -/

/-- A Python method signature: positional parameter names after `self`,
and, for methods annotated as returning a tuple, its arity. -/
structure PyMethodSig where
  name : String
  params : List String
  resultTupleSize : Option Nat
  deriving Repr, DecidableEq

/-- The public parse methods `IndygoParser` defines (`parser.py` lines
29, 61, 128, 145): `extract_json_object(text, start_index)`,
`parse_pool_ids(html, pool_id) -> tuple[str | None, str | None, dict]`
(a 3-tuple), `parse_ipx_module(html)`, and
`parse_data(json_data, pool_id, pool_address, relay_id)`. -/
def indygoParserMethods : List PyMethodSig :=
  [⟨"extract_json_object", ["text", "start_index"], none⟩,
   ⟨"parse_pool_ids", ["html", "pool_id"], some 3⟩,
   ⟨"parse_ipx_module", ["html"], none⟩,
   ⟨"parse_data", ["json_data", "pool_id", "pool_address", "relay_id"], none⟩]

/-- A call site on the parser: method name, number of positional
arguments after `self`, keyword-argument names, and the number of names
the result is tuple-unpacked into (when it is). -/
structure PyCallSite where
  method : String
  posArgs : Nat
  kwargNames : List String
  unpackNames : Option Nat
  deriving Repr, DecidableEq

/-- The parser calls one refresh cycle makes, in order
(`async_get_data` line 225 runs `async_refresh_scraped_data` first):
`parse_pool_ids(text, self._pool_id)` unpacked into four names
(api.py lines 196-198), `parse_ipx_module(text)` (line 199),
`parse_programs_from_html(text)` (line 202), and
`parse_data(data, self._pool_id, self._pool_address, self._relay_id,
scraped_programs=self._scraped_programs)` (lines 266-272). -/
def refreshCycleParserCalls : List PyCallSite :=
  [⟨"parse_pool_ids", 2, [], some 4⟩,
   ⟨"parse_ipx_module", 1, [], none⟩,
   ⟨"parse_programs_from_html", 1, [], none⟩,
   ⟨"parse_data", 4, ["scraped_programs"], none⟩]

/-- Look a method up on the parser class. -/
def lookupMethod (nm : String) : Option PyMethodSig :=
  indygoParserMethods.find? (fun sig => sig.name = nm)

/-- A call site is well-formed when the method exists, the positional
and keyword arguments fit its parameters, and any tuple-unpacking of the
result matches the tuple arity the method returns. -/
def callSiteOk (c : PyCallSite) : Bool :=
  match lookupMethod c.method with
  | none => false
  | some sig =>
    c.posArgs = sig.params.length &&
    c.kwargNames.all (fun k => sig.params.contains k) &&
    (match c.unpackNames, sig.resultTupleSize with
     | some n, some m => n = m
     | some _, none => false
     | none, _ => true)

/-- C1: the refresh cycle's parser interface does NOT line up: of the
four parser calls a refresh makes, only `parse_ipx_module` is
well-formed.  `parse_pool_ids` returns a 3-tuple but api.py lines
196-198 unpack it into four names (ValueError on every refresh),
`parse_programs_from_html` (api.py line 202) does not exist on
`IndygoParser` (AttributeError), and `parse_data` is called with a
`scraped_programs` keyword (api.py line 271) its signature does not
accept (TypeError) — so `async_get_data` can never reach the normalizer
and never returns an `IndygoPoolData`. -/
theorem C1_refresh_interface_mismatch :
    (refreshCycleParserCalls.filter (fun c => callSiteOk c)).length = 1 ∧
    callSiteOk ⟨"parse_pool_ids", 2, [], some 4⟩ = false ∧
    (∀ sig ∈ indygoParserMethods, sig.name = "parse_pool_ids" →
      sig.resultTupleSize = some 3) ∧
    lookupMethod "parse_programs_from_html" = none ∧
    callSiteOk ⟨"parse_data", 4, ["scraped_programs"], none⟩ = false := by
  decide

end IndygoPool
